import Mathlib

/-!
Shallow embedding of the `py_lexer` crate (files `src/tokens.rs`,
`src/errors.rs`, `src/lexer.rs`).  Each Lean definition mirrors the Rust
item of the same name.  Machine integers are modelled as `Nat`/`Int`; the
`u32` bracket counter uses explicit wrap-around arithmetic modulo `2^32`
(the semantics of release builds; debug builds abort at the same point).
Character cursors (`MultiPeekable<Chars>`) are modelled as `List Char`
with `peek = head?`, `peek_at i` = index `i`, `next` = head removal.
-/

namespace PyLex

abbrev Str := String

/-- Token variants of `tokens.rs` (`enum Token`). -/
inductive Token where
  | Newline | Indent | Dedent
  | False | None | True | And | As | Assert | Break | Class | Continue
  | Def | Del | Elif | Else | Except | Finally | For | From | Global
  | If | Import | In | Is | Lambda | Nonlocal | Not | Or | Pass
  | Raise | Return | Try | While | With | Yield
  | Plus | Minus | Times | Exponent | Divide | DivideFloor | Mod | At
  | Lshift | Rshift | BitAnd | BitOr | BitXor | BitNot
  | LT | GT | LE | GE | EQ | NE
  | Lparen | Rparen | Lbracket | Rbracket | Lbrace | Rbrace
  | Comma | Colon | Dot | Ellipsis | Semi | Arrow
  | Assign | AssignPlus | AssignMinus | AssignTimes | AssignDivide
  | AssignDivideFloor | AssignMod | AssignAt | AssignBitAnd | AssignBitOr
  | AssignBitXor | AssignRshift | AssignLshift | AssignExponent
  | Quote | DoubleQuote
  | Identifier (s : Str)
  | String (s : Str)
  | Bytes (bs : List Nat)
  | DecInteger (s : Str)
  | BinInteger (s : Str)
  | OctInteger (s : Str)
  | HexInteger (s : Str)
  | Float (s : Str)
  | Imaginary (s : Str)
  deriving Repr

/-- Constructor index of a `Token`, for the hand-written decidable
equality below (`deriving DecidableEq` does not scale to this enum). -/
def Token.tag : Token → Nat
  | .Newline => 0
  | .Indent => 1
  | .Dedent => 2
  | .False => 3
  | .None => 4
  | .True => 5
  | .And => 6
  | .As => 7
  | .Assert => 8
  | .Break => 9
  | .Class => 10
  | .Continue => 11
  | .Def => 12
  | .Del => 13
  | .Elif => 14
  | .Else => 15
  | .Except => 16
  | .Finally => 17
  | .For => 18
  | .From => 19
  | .Global => 20
  | .If => 21
  | .Import => 22
  | .In => 23
  | .Is => 24
  | .Lambda => 25
  | .Nonlocal => 26
  | .Not => 27
  | .Or => 28
  | .Pass => 29
  | .Raise => 30
  | .Return => 31
  | .Try => 32
  | .While => 33
  | .With => 34
  | .Yield => 35
  | .Plus => 36
  | .Minus => 37
  | .Times => 38
  | .Exponent => 39
  | .Divide => 40
  | .DivideFloor => 41
  | .Mod => 42
  | .At => 43
  | .Lshift => 44
  | .Rshift => 45
  | .BitAnd => 46
  | .BitOr => 47
  | .BitXor => 48
  | .BitNot => 49
  | .LT => 50
  | .GT => 51
  | .LE => 52
  | .GE => 53
  | .EQ => 54
  | .NE => 55
  | .Lparen => 56
  | .Rparen => 57
  | .Lbracket => 58
  | .Rbracket => 59
  | .Lbrace => 60
  | .Rbrace => 61
  | .Comma => 62
  | .Colon => 63
  | .Dot => 64
  | .Ellipsis => 65
  | .Semi => 66
  | .Arrow => 67
  | .Assign => 68
  | .AssignPlus => 69
  | .AssignMinus => 70
  | .AssignTimes => 71
  | .AssignDivide => 72
  | .AssignDivideFloor => 73
  | .AssignMod => 74
  | .AssignAt => 75
  | .AssignBitAnd => 76
  | .AssignBitOr => 77
  | .AssignBitXor => 78
  | .AssignRshift => 79
  | .AssignLshift => 80
  | .AssignExponent => 81
  | .Quote => 82
  | .DoubleQuote => 83
  | .Identifier _ => 84
  | .String _ => 85
  | .DecInteger _ => 86
  | .BinInteger _ => 87
  | .OctInteger _ => 88
  | .HexInteger _ => 89
  | .Float _ => 90
  | .Imaginary _ => 91
  | .Bytes _ => 92

/-- String payload of a `Token` (empty for payload-free variants). -/
def Token.payloadS : Token → Str
  | .Identifier s => s
  | .String s => s
  | .DecInteger s => s
  | .BinInteger s => s
  | .OctInteger s => s
  | .HexInteger s => s
  | .Float s => s
  | .Imaginary s => s
  | _ => ""

/-- Byte payload of a `Token`. -/
def Token.payloadB : Token → List Nat
  | .Bytes bs => bs
  | _ => []

/-- Inverse of the encoding `(tag, payloadS, payloadB)`. -/
def Token.decode : Nat × Str × List Nat → Token
  | (0, _, _) => .Newline
  | (1, _, _) => .Indent
  | (2, _, _) => .Dedent
  | (3, _, _) => .False
  | (4, _, _) => .None
  | (5, _, _) => .True
  | (6, _, _) => .And
  | (7, _, _) => .As
  | (8, _, _) => .Assert
  | (9, _, _) => .Break
  | (10, _, _) => .Class
  | (11, _, _) => .Continue
  | (12, _, _) => .Def
  | (13, _, _) => .Del
  | (14, _, _) => .Elif
  | (15, _, _) => .Else
  | (16, _, _) => .Except
  | (17, _, _) => .Finally
  | (18, _, _) => .For
  | (19, _, _) => .From
  | (20, _, _) => .Global
  | (21, _, _) => .If
  | (22, _, _) => .Import
  | (23, _, _) => .In
  | (24, _, _) => .Is
  | (25, _, _) => .Lambda
  | (26, _, _) => .Nonlocal
  | (27, _, _) => .Not
  | (28, _, _) => .Or
  | (29, _, _) => .Pass
  | (30, _, _) => .Raise
  | (31, _, _) => .Return
  | (32, _, _) => .Try
  | (33, _, _) => .While
  | (34, _, _) => .With
  | (35, _, _) => .Yield
  | (36, _, _) => .Plus
  | (37, _, _) => .Minus
  | (38, _, _) => .Times
  | (39, _, _) => .Exponent
  | (40, _, _) => .Divide
  | (41, _, _) => .DivideFloor
  | (42, _, _) => .Mod
  | (43, _, _) => .At
  | (44, _, _) => .Lshift
  | (45, _, _) => .Rshift
  | (46, _, _) => .BitAnd
  | (47, _, _) => .BitOr
  | (48, _, _) => .BitXor
  | (49, _, _) => .BitNot
  | (50, _, _) => .LT
  | (51, _, _) => .GT
  | (52, _, _) => .LE
  | (53, _, _) => .GE
  | (54, _, _) => .EQ
  | (55, _, _) => .NE
  | (56, _, _) => .Lparen
  | (57, _, _) => .Rparen
  | (58, _, _) => .Lbracket
  | (59, _, _) => .Rbracket
  | (60, _, _) => .Lbrace
  | (61, _, _) => .Rbrace
  | (62, _, _) => .Comma
  | (63, _, _) => .Colon
  | (64, _, _) => .Dot
  | (65, _, _) => .Ellipsis
  | (66, _, _) => .Semi
  | (67, _, _) => .Arrow
  | (68, _, _) => .Assign
  | (69, _, _) => .AssignPlus
  | (70, _, _) => .AssignMinus
  | (71, _, _) => .AssignTimes
  | (72, _, _) => .AssignDivide
  | (73, _, _) => .AssignDivideFloor
  | (74, _, _) => .AssignMod
  | (75, _, _) => .AssignAt
  | (76, _, _) => .AssignBitAnd
  | (77, _, _) => .AssignBitOr
  | (78, _, _) => .AssignBitXor
  | (79, _, _) => .AssignRshift
  | (80, _, _) => .AssignLshift
  | (81, _, _) => .AssignExponent
  | (82, _, _) => .Quote
  | (83, _, _) => .DoubleQuote
  | (84, s, _) => .Identifier s
  | (85, s, _) => .String s
  | (86, s, _) => .DecInteger s
  | (87, s, _) => .BinInteger s
  | (88, s, _) => .OctInteger s
  | (89, s, _) => .HexInteger s
  | (90, s, _) => .Float s
  | (91, s, _) => .Imaginary s
  | (92, _, bs) => .Bytes bs
  | _ => .Newline

theorem Token.decode_encode (t : Token) :
    Token.decode (t.tag, t.payloadS, t.payloadB) = t := by
  cases t <;> rfl

instance : DecidableEq Token := fun a b =>
  if h : (a.tag, a.payloadS, a.payloadB) = (b.tag, b.payloadS, b.payloadB) then
    .isTrue (by
      have h2 := congrArg Token.decode h
      rwa [Token.decode_encode, Token.decode_encode] at h2)
  else
    .isFalse (fun hab => h (by rw [hab]))

/-- Error kinds of `errors.rs` (`enum LexerError`). -/
inductive LexerError where
  | BadLineContinuation
  | UnterminatedTripleString
  | UnterminatedString
  | InvalidCharacter (c : Char)
  | Dedent
  | HexEscapeShort
  | MalformedUnicodeEscape
  | MalformedNamedUnicodeEscape
  | UnknownUnicodeName (s : Str)
  | MissingDigits
  | MalformedFloat
  | MalformedImaginary
  | InvalidSymbol (c : Char)
  | Internal (s : Str)
  deriving DecidableEq, Repr

/-- Rust `type ResultToken = Result<Token, LexerError>`. -/
abbrev ResultToken := Except LexerError Token

/-- Items of the lexer iterator: `(usize, ResultToken)`. -/
abbrev Item := Nat × ResultToken

/-- Keyword table `KEYWORDS` of `tokens.rs`. -/
def KEYWORDS : List (Str × Token) :=
  [("False", .False), ("None", .None), ("True", .True), ("and", .And),
   ("as", .As), ("assert", .Assert), ("break", .Break), ("class", .Class),
   ("continue", .Continue), ("def", .Def), ("del", .Del), ("elif", .Elif),
   ("else", .Else), ("except", .Except), ("finally", .Finally),
   ("for", .For), ("from", .From), ("global", .Global), ("if", .If),
   ("import", .Import), ("in", .In), ("is", .Is), ("lambda", .Lambda),
   ("nonlocal", .Nonlocal), ("not", .Not), ("or", .Or), ("pass", .Pass),
   ("raise", .Raise), ("return", .Return), ("try", .Try),
   ("while", .While), ("with", .With), ("yield", .Yield)]

/-- Rust `keyword_lookup`: linear search of the keyword table, falling back
to `Identifier`. -/
def keyword_lookup (token_str : Str) : Token :=
  match KEYWORDS.find? (fun p => p.1 = token_str) with
  | some p => p.2
  | none => .Identifier token_str

/-- Rust `Token::is_decimal_integer`. -/
def Token.is_decimal_integer : Token → Bool
  | .DecInteger _ => true
  | _ => false

/-- Rust `Token::is_float`. -/
def Token.is_float : Token → Bool
  | .Float _ => true
  | _ => false

/-- Rust `Token::lexeme`.  Payload variants return their payload; every
entry of the source `LEXEMES` table maps to the empty string, so all
other variants return `""`.  (`Token::Bytes` goes through
`String::from_utf8`; that path is never exercised by the lexer pipeline,
whose byte joiner matches `Bytes` structurally.) -/
def Token.lexeme : Token → Str
  | .Identifier s => s
  | .String s => s
  | .DecInteger s => s
  | .BinInteger s => s
  | .OctInteger s => s
  | .HexInteger s => s
  | .Float s => s
  | .Imaginary s => s
  | _ => ""

/-- Rust `Token::with_equal`. -/
def Token.with_equal : Token → Token
  | .Plus => .AssignPlus
  | .Minus => .AssignMinus
  | .Times => .AssignTimes
  | .Exponent => .AssignExponent
  | .Divide => .AssignDivide
  | .DivideFloor => .AssignDivideFloor
  | .BitAnd => .AssignBitAnd
  | .BitOr => .AssignBitOr
  | .BitXor => .AssignBitXor
  | .Mod => .AssignMod
  | .At => .AssignAt
  | .Assign => .EQ
  | .LT => .LE
  | .Lshift => .AssignLshift
  | .GT => .GE
  | .Rshift => .AssignRshift
  | t => t

/-- Rust `char::to_digit` (`std`): value of `c` as a digit, any radix up
to 36. -/
def char_to_digit (c : Char) : Option Nat :=
  if '0' ≤ c ∧ c ≤ '9' then some (c.toNat - '0'.toNat)
  else if 'a' ≤ c ∧ c ≤ 'z' then some (c.toNat - 'a'.toNat + 10)
  else if 'A' ≤ c ∧ c ≤ 'Z' then some (c.toNat - 'A'.toNat + 10)
  else none

/-- Rust `char::is_digit(radix)`: the digit value exists and is below the
radix. -/
def char_is_digit (c : Char) (radix : Nat) : Bool :=
  match char_to_digit c with
  | some d => d < radix
  | none => false

/-- Rust `u32::from_str_radix` on strings of already-validated digits
(the only way the lexer uses it). -/
def from_str_radix (s : Str) (radix : Nat) : Nat :=
  s.toList.foldl (fun acc c => acc * radix + ((char_to_digit c).getD 0)) 0

/-- Rust `char::from_u32` (`std`): `some` exactly on Unicode scalar
values, `none` on surrogates and on values above `0x10FFFF`. -/
def charFromU32 (v : Nat) : Option Char :=
  if v < 0xD800 ∨ (0xE000 ≤ v ∧ v < 0x110000) then some (Char.ofNat v)
  else none

/-- Rust `char::is_ascii`. -/
def char_is_ascii (c : Char) : Bool := c.toNat < 128

/-- Rust `c as u8` on a `char`: truncation to the low byte. -/
def char_as_u8 (c : Char) : Nat := c.toNat % 256

/-- Constant `TAB_STOP_SIZE` of `lexer.rs`. -/
def TAB_STOP_SIZE : Nat := 8

/-- Modulus of the `u32` bracket counter. -/
def U32_MOD : Nat := 4294967296

/-- Wrapping `u32` increment (`self.open_braces += 1`). -/
def u32_add1 (x : Nat) : Nat := (x + 1) % U32_MOD

/-- Rust `cmp::max(0, self.open_braces - 1)` on `u32`: the subtraction is
evaluated first and wraps at zero (release semantics; debug builds abort
there), after which `max 0` is the identity. -/
def clamped_dec (x : Nat) : Nat := Nat.max 0 ((x + (U32_MOD - 1)) % U32_MOD)

/-- Rust `is_space` of `lexer.rs`: space, tab, form feed, carriage
return. -/
def is_space (c : Char) : Bool :=
  c = ' ' || c = '\t' || c = '\x0C' || c = '\r'

/-- Rust `is_xid_start`: `c.is_alphabetic() || c == '_'`.  The source
documents this predicate as a deliberate simplification of the Unicode
tables; the model reads `is_alphabetic` on the ASCII range (every input
in this development is ASCII). -/
def is_xid_start (c : Char) : Bool := c.isAlpha || c = '_'

/-- Rust `is_xid_continue`: `c.is_alphanumeric() || c == '_'` (same ASCII
reading as `is_xid_start`). -/
def is_xid_continue (c : Char) : Bool := c.isAlphanum || c = '_'

/-- Rust `determine_spaces`. -/
def determine_spaces (char_count tab_stop_size : Nat) : Nat :=
  tab_stop_size - char_count % tab_stop_size

/-- Rust `process_character`: advance the indentation width by one column,
or to the next tab stop for a tab. -/
def process_character (count : Nat) (c : Char) : Nat :=
  if c = '\t' then count + determine_spaces count TAB_STOP_SIZE
  else count + 1

/-- Loop body of Rust `count_indentation`: consume leading whitespace,
accumulating the width and the consumed characters. -/
def count_indentation_from (count : Nat) (spaces : Str) :
    List Char → Nat × Str × List Char
  | [] => (count, spaces, [])
  | c :: rest =>
    if is_space c then
      count_indentation_from (process_character count c) (spaces.push c) rest
    else (count, spaces, c :: rest)

/-- Rust `count_indentation`, returning additionally the remaining
character stream of the line. -/
def count_indentation (cs : List Char) : Nat × Str × List Char :=
  count_indentation_from 0 "" cs

/-- Per-line state `struct Line` of `lexer.rs`. -/
structure Line where
  number : Nat
  indentation : Nat
  leading_spaces : Str
  chars : List Char
  deriving DecidableEq, Repr

/-- One step of the line constructor inside `InternalLexer::new`: number a
raw line and pre-scan its indentation. -/
def mk_line (n : Nat) (s : Str) : Line :=
  let r := count_indentation s.toList
  ⟨n, r.1, r.2.1, r.2.2⟩

/-- The `(1..).zip(lines)` line iterator of `InternalLexer::new`. -/
def mk_lines (input : List Str) : List Line :=
  input.enum.map (fun p => mk_line (p.1 + 1) p.2)

/-- Mutable fields of `struct InternalLexer` (the current line is threaded
separately, mirroring `next_token`'s `take`/restore of
`self.current_line`). -/
structure LexState where
  indent_stack : List Nat
  dedent_count : Int
  open_braces : Nat
  lines : List Line
  deriving DecidableEq, Repr

/-- The indent stack is modelled with its head as the top (`Vec::last`);
`InternalLexer::new` starts from `vec![0]`. -/
def init_state (input : List Str) : LexState :=
  ⟨[0], 0, 0, mk_lines input⟩


/-- Maximal prefix of a character list satisfying a predicate, as a
string, together with the rest (body of `consume_and_while`'s loop). -/
def take_while_str (p : Char → Bool) (cs : List Char) : Str × List Char :=
  (String.mk (cs.takeWhile p), cs.dropWhile p)

/-- Rust `consume_and_while`: unconditionally consume one character, then
consume while the predicate holds, appending everything to `token_str`.
(The source unwraps the first `next`; every caller peeks first, so the
empty case is unreachable and modelled as the identity.) -/
def consume_and_while (token_str : Str) (line : Line) (p : Char → Bool) :
    Str × Line :=
  match line.chars with
  | [] => (token_str, line)
  | c :: rest =>
    ((token_str.push c) ++ String.mk (rest.takeWhile p),
     {line with chars := rest.dropWhile p})

/-- Rust `consume_space_to_next`: skip inter-token whitespace. -/
def consume_space_to_next (current_line : Line) : Line :=
  {current_line with chars := current_line.chars.dropWhile is_space}

/-- Rust `build_n_while`: consume up to `n` characters while the
predicate holds; `some` of the consumed string exactly when `n`
characters were obtained. -/
def build_n_while (n : Nat) (cs : List Char) (p : Char → Bool) :
    Option Str × List Char :=
  match n, cs with
  | 0, cs => (some "", cs)
  | _ + 1, [] => (none, [])
  | n + 1, c :: rest =>
    if p c then
      match build_n_while n rest p with
      | (some s, cs2) => (some (String.singleton c ++ s), cs2)
      | (none, cs2) => (none, cs2)
    else (none, c :: rest)

/-- Rust `match_one`: consume one character, produce the given token. -/
def match_one (line : Line) (tk : Token) : Token × Line :=
  (tk, {line with chars := line.chars.tail})

/-- Rust `match_pair_opt`: consume `c` and produce `matched_token` when
`c` is next, otherwise keep `old_token`. -/
def match_pair_opt (old_token : Token) (line : Line) (c : Char)
    (matched_token : Token) : Token × Line :=
  match line.chars with
  | k :: rest =>
    if k = c then (matched_token, {line with chars := rest})
    else (old_token, line)
  | [] => (old_token, line)

/-- Rust `match_pair_eq_opt`: optional doubling then optional `=`
(compound-assignment families). -/
def match_pair_eq_opt (line : Line) (initial_token : Token)
    (paired_char : Char) (paired_token : Token) : Token × Line :=
  let r := match_pair_opt initial_token line paired_char paired_token
  match_pair_opt r.1 r.2 '=' r.1.with_equal

/-- Rust `InternalLexer::build_symbol`: the operator/punctuation matcher.
Takes and returns the `open_braces` counter (the only field of `self` it
touches); the character giving no match is left unconsumed, exactly as in
the source. -/
def build_symbol (open_braces : Nat) (line : Line) :
    Nat × Item × Line :=
  match line.chars.head? with
  | some '(' =>
    let r := match_one line .Lparen
    (u32_add1 open_braces, (r.2.number, .ok r.1), r.2)
  | some ')' =>
    let r := match_one line .Rparen
    (clamped_dec open_braces, (r.2.number, .ok r.1), r.2)
  | some '[' =>
    let r := match_one line .Lbracket
    (u32_add1 open_braces, (r.2.number, .ok r.1), r.2)
  | some ']' =>
    let r := match_one line .Rbracket
    (clamped_dec open_braces, (r.2.number, .ok r.1), r.2)
  | some '{' =>
    let r := match_one line .Lbrace
    (u32_add1 open_braces, (r.2.number, .ok r.1), r.2)
  | some '}' =>
    let r := match_one line .Rbrace
    (clamped_dec open_braces, (r.2.number, .ok r.1), r.2)
  | some ',' =>
    let r := match_one line .Comma
    (open_braces, (r.2.number, .ok r.1), r.2)
  | some ':' =>
    let r := match_one line .Colon
    (open_braces, (r.2.number, .ok r.1), r.2)
  | some ';' =>
    let r := match_one line .Semi
    (open_braces, (r.2.number, .ok r.1), r.2)
  | some '~' =>
    let r := match_one line .BitNot
    (open_braces, (r.2.number, .ok r.1), r.2)
  | some '=' =>
    let r1 := match_one line .Assign
    let r := match_pair_opt r1.1 r1.2 '=' .EQ
    (open_braces, (r.2.number, .ok r.1), r.2)
  | some '@' =>
    let r1 := match_one line .At
    let r := match_pair_opt r1.1 r1.2 '=' .AssignAt
    (open_braces, (r.2.number, .ok r.1), r.2)
  | some '%' =>
    let r1 := match_one line .Mod
    let r := match_pair_opt r1.1 r1.2 '=' .AssignMod
    (open_braces, (r.2.number, .ok r.1), r.2)
  | some '&' =>
    let r1 := match_one line .BitAnd
    let r := match_pair_opt r1.1 r1.2 '=' .AssignBitAnd
    (open_braces, (r.2.number, .ok r.1), r.2)
  | some '|' =>
    let r1 := match_one line .BitOr
    let r := match_pair_opt r1.1 r1.2 '=' .AssignBitOr
    (open_braces, (r.2.number, .ok r.1), r.2)
  | some '^' =>
    let r1 := match_one line .BitXor
    let r := match_pair_opt r1.1 r1.2 '=' .AssignBitXor
    (open_braces, (r.2.number, .ok r.1), r.2)
  | some '+' =>
    let r1 := match_one line .Plus
    let r := match_pair_opt r1.1 r1.2 '=' .AssignPlus
    (open_braces, (r.2.number, .ok r.1), r.2)
  | some '*' =>
    let r1 := match_one line .Times
    let r := match_pair_eq_opt r1.2 r1.1 '*' .Exponent
    (open_braces, (r.2.number, .ok r.1), r.2)
  | some '/' =>
    let r1 := match_one line .Divide
    let r := match_pair_eq_opt r1.2 r1.1 '/' .DivideFloor
    (open_braces, (r.2.number, .ok r.1), r.2)
  | some '<' =>
    let r1 := match_one line .LT
    let r := match_pair_eq_opt r1.2 r1.1 '<' .Lshift
    (open_braces, (r.2.number, .ok r.1), r.2)
  | some '>' =>
    let r1 := match_one line .GT
    let r := match_pair_eq_opt r1.2 r1.1 '>' .Rshift
    (open_braces, (r.2.number, .ok r.1), r.2)
  | some '-' =>
    let r1 := match_one line .Minus
    let r2 := match_pair_opt r1.1 r1.2 '=' .AssignMinus
    let r :=
      if r2.1 = Token.Minus then match_pair_opt r2.1 r2.2 '>' .Arrow
      else r2
    (open_braces, (r.2.number, .ok r.1), r.2)
  | some '!' =>
    let line1 : Line := {line with chars := line.chars.tail}
    match line1.chars.head? with
    | some '=' =>
      let r := match_one line1 .NE
      (open_braces, (r.2.number, .ok r.1), r.2)
    | _ =>
      (open_braces, (line1.number, .error (.InvalidSymbol '!')), line1)
  | some '.' =>
    let line1 : Line := {line with chars := line.chars.tail}
    match line1.chars.head? with
    | some '.' =>
      match line1.chars[1]? with
      | some '.' =>
        let line2 : Line := {line1 with chars := line1.chars.tail.tail}
        (open_braces, (line2.number, .ok .Ellipsis), line2)
      | _ => (open_braces, (line1.number, .ok .Dot), line1)
    | _ => (open_braces, (line1.number, .ok .Dot), line1)
  | some c =>
    (open_braces, (line.number, .error (.InvalidSymbol c)), line)
  | none =>
    (open_braces, (line.number, .error (.Internal "error processing symbol")),
     line)

/-- Rust `build_identifier`: maximal identifier-continue run, then
keyword lookup. -/
def build_identifier (line : Line) : Item × Line :=
  let r := consume_and_while "" line is_xid_continue
  ((r.2.number, .ok (keyword_lookup r.1)), r.2)

/-- Rust `require_radix_digits`: a nonempty digit run in the given radix,
else `MissingDigits`. -/
def require_radix_digits (token_str : Str) (line : Line) (radix : Nat)
    (token_type : Str → Token) : ResultToken × Line :=
  match line.chars.head? with
  | some c =>
    if char_is_digit c radix then
      let r := consume_and_while token_str line (fun k => char_is_digit k radix)
      (.ok (token_type r.1), r.2)
    else (.error .MissingDigits, line)
  | none => (.error .MissingDigits, line)

/-- Rust `build_point_float`. -/
def build_point_float (token : ResultToken) (line : Line) :
    ResultToken × Line :=
  match token with
  | .error e => (.error e, line)
  | .ok t =>
    match line.chars.head? with
    | some '.' =>
      if t.is_decimal_integer then
        let token_str := (t.lexeme).push '.'
        let line1 : Line := {line with chars := line.chars.tail}
        match line1.chars.head? with
        | some c =>
          if char_is_digit c 10 then
            require_radix_digits token_str line1 10 (fun s => .Float s)
          else (.ok (.Float token_str), line1)
        | none => (.ok (.Float token_str), line1)
      else (.error .MalformedFloat, line)
    | _ => (.ok t, line)

/-- Rust `build_exp_float`. -/
def build_exp_float (token : ResultToken) (line : Line) :
    ResultToken × Line :=
  match token with
  | .error e => (.error e, line)
  | .ok t =>
    match line.chars.head? with
    | some c =>
      if c = 'e' ∨ c = 'E' then
        if t.is_decimal_integer || t.is_float then
          let token_str := (t.lexeme).push c
          let line1 : Line := {line with chars := line.chars.tail}
          match line1.chars.head? with
          | some k =>
            if k = '+' ∨ k = '-' then
              require_radix_digits (token_str.push k)
                {line1 with chars := line1.chars.tail} 10 (fun s => .Float s)
            else require_radix_digits token_str line1 10 (fun s => .Float s)
          | none => require_radix_digits token_str line1 10 (fun s => .Float s)
        else (.error .MalformedFloat, line)
      else (.ok t, line)
    | none => (.ok t, line)

/-- Rust `build_img_float`. -/
def build_img_float (token : ResultToken) (line : Line) :
    ResultToken × Line :=
  match token with
  | .error e => (.error e, line)
  | .ok t =>
    match line.chars.head? with
    | some c =>
      if c = 'j' ∨ c = 'J' then
        if t.is_decimal_integer || t.is_float then
          (.ok (.Imaginary ((t.lexeme).push c)),
           {line with chars := line.chars.tail})
        else (.error .MalformedImaginary, line)
      else (.ok t, line)
    | none => (.ok t, line)

/-- Rust `build_float_part`: optional point, exponent and imaginary
extensions. -/
def build_float_part (token : ResultToken) (line : Line) :
    ResultToken × Line :=
  let r1 := build_point_float token line
  let r2 := build_exp_float r1.1 r1.2
  build_img_float r2.1 r2.2

/-- Rust `require_float_part`: a float/imaginary marker must follow,
else `MalformedFloat`. -/
def require_float_part (token : ResultToken) (line : Line) :
    ResultToken × Line :=
  let float_part :=
    match line.chars.head? with
    | some c => c = '.' || c = 'e' || c = 'E' || c = 'j' || c = 'J'
    | none => Bool.false
  if !float_part then (.error .MalformedFloat, line)
  else build_float_part token line

/-- Rust `build_decimal_number`. -/
def build_decimal_number (line : Line) : ResultToken × Line :=
  require_radix_digits "" line 10 (fun s => .DecInteger s)

/-- Rust `build_zero_prefixed_number`: radix-prefixed integers and the
legacy-octal-looking decimal rejection.  (The opening `next().unwrap()`
is guarded by the caller's peek of `'0'`; the empty case is modelled as
an internal error.) -/
def build_zero_prefixed_number (line : Line) : ResultToken × Line :=
  match line.chars with
  | [] => (.error (.Internal "zero"), line)
  | c0 :: rest =>
    let token_str := String.singleton c0
    let line1 : Line := {line with chars := rest}
    match rest.head? with
    | some c =>
      if c = 'o' ∨ c = 'O' then
        require_radix_digits (token_str.push c)
          {line1 with chars := line1.chars.tail} 8 (fun s => .OctInteger s)
      else if c = 'x' ∨ c = 'X' then
        require_radix_digits (token_str.push c)
          {line1 with chars := line1.chars.tail} 16 (fun s => .HexInteger s)
      else if c = 'b' ∨ c = 'B' then
        require_radix_digits (token_str.push c)
          {line1 with chars := line1.chars.tail} 2 (fun s => .BinInteger s)
      else if c = '0' then
        let r := consume_and_while token_str line1 (fun k => char_is_digit k 1)
        match r.2.chars.head? with
        | some d =>
          if char_is_digit d 10 then
            let r2 := require_radix_digits r.1 r.2 10 (fun s => .DecInteger s)
            require_float_part r2.1 r2.2
          else build_float_part (.ok (.DecInteger r.1)) r.2
        | none => build_float_part (.ok (.DecInteger r.1)) r.2
      else if char_is_digit c 10 then
        let r2 := require_radix_digits token_str line1 10 (fun s => .DecInteger s)
        require_float_part r2.1 r2.2
      else build_float_part (.ok (.DecInteger token_str)) line1
    | none => build_float_part (.ok (.DecInteger token_str)) line1

/-- Rust `build_dot_prefixed`: dot-prefixed floats (the caller's dispatch
guarantees a digit follows the dot; otherwise the source returns an
internal error). -/
def build_dot_prefixed (line : Line) : ResultToken × Line :=
  match line.chars with
  | [] => (.error (.Internal "dot"), line)
  | c0 :: rest =>
    let token_str := String.singleton c0
    let line1 : Line := {line with chars := rest}
    match rest.head? with
    | some c =>
      if char_is_digit c 10 then
        let r := require_radix_digits token_str line1 10 (fun s => .Float s)
        let r2 := build_exp_float r.1 r.2
        build_img_float r2.1 r2.2
      else (.error (.Internal "dot"), line1)
    | none => (.error (.Internal "dot"), line1)

/-- Rust `build_number`: dispatch on the first character. -/
def build_number (line : Line) : Item × Line :=
  match line.chars.head? with
  | some '0' =>
    let r := build_zero_prefixed_number line
    ((r.2.number, r.1), r.2)
  | some '.' =>
    let r := build_dot_prefixed line
    ((r.2.number, r.1), r.2)
  | _ =>
    let r := build_decimal_number line
    let r2 := build_float_part r.1 r.2
    ((r2.2.number, r2.1), r2.2)


/-- Table modelling the external `unicode_names` crate
(`unicode_names::character`) on the names this development exercises;
unknown names give `none`, as in the crate. -/
def unicode_names_character (named : Str) : Option Char :=
  if named = "BLACK STAR" then charFromU32 0x2605 else none

/-- Digit collection shared by the two octal-escape decoders: the escape
character plus up to two further octal digits. -/
def take_octal_digits (line : Line) (c : Char) : Str × Line :=
  match line.chars with
  | k :: rest =>
    if char_is_digit k 8 then
      match rest with
      | k2 :: rest2 =>
        if char_is_digit k2 8 then
          (String.mk [c, k, k2], {line with chars := rest2})
        else (String.mk [c, k], {line with chars := rest})
      | [] => (String.mk [c, k], {line with chars := rest})
    else (String.singleton c, line)
  | [] => (String.singleton c, line)

/-- Rust `push_octal_character`: one to three octal digits, decoded to a
character.  The `char::from_u32(...).unwrap()` of the source is the
`none` result (a panic; octal values are at most `0o777`, so it is in
fact unreachable). -/
def push_octal_character (line : Line) (token_str : Str) (c : Char) :
    Option (Option Line × Except LexerError Str) :=
  match charFromU32 (from_str_radix (take_octal_digits line c).1 8) with
  | some ch =>
    some (some (take_octal_digits line c).2, .ok (token_str.push ch))
  | none => none

/-- Rust `push_hex_character`: exactly two hex digits or
`HexEscapeShort`; the decoded value is at most `0xFF`, so the unwrap of
`char::from_u32` (`none` here) is unreachable. -/
def push_hex_character (line : Line) (token_str : Str) :
    Option (Option Line × Except LexerError Str) :=
  match build_n_while 2 line.chars (fun c => char_is_digit c 16) with
  | (some s, cs) =>
    match charFromU32 (from_str_radix s 16) with
    | some ch => some (some {line with chars := cs}, .ok (token_str.push ch))
    | none => none
  | (none, cs) =>
    some (some {line with chars := cs}, .error .HexEscapeShort)

/-- Rust `push_unicode_character`: exactly `num_digits` hex digits or
`MalformedUnicodeEscape`; the `none` result is the
`char::from_u32(...).unwrap()` panic of the source, reached when the
digits denote a surrogate or a value above `0x10FFFF`. -/
def push_unicode_character (line : Line) (token_str : Str)
    (num_digits : Nat) : Option (Option Line × Except LexerError Str) :=
  match build_n_while num_digits line.chars (fun c => char_is_digit c 16) with
  | (some s, cs) =>
    match charFromU32 (from_str_radix s 16) with
    | some ch => some (some {line with chars := cs}, .ok (token_str.push ch))
    | none => none
  | (none, cs) =>
    some (some {line with chars := cs}, .error .MalformedUnicodeEscape)

/-- Rust `push_named_character`: `\x7bNAME\x7d` lookup through the
`unicode_names` crate. -/
def push_named_character (line : Line) (token_str : Str) :
    Option Line × Except LexerError Str :=
  match line.chars with
  | '{' :: rest =>
    match rest.dropWhile (fun c => c ≠ '}') with
    | '}' :: rest3 =>
      match unicode_names_character
          (String.mk (rest.takeWhile (fun c => c ≠ '}'))) with
      | some c =>
        (some {line with chars := rest3}, .ok (token_str.push c))
      | none =>
        (some {line with chars := rest3},
         .error (.UnknownUnicodeName
           (String.mk (rest.takeWhile (fun c => c ≠ '}')))))
    | rest2 =>
      (some {line with chars := rest2}, .error .MalformedNamedUnicodeEscape)
  | _ => (some line, .error .MalformedNamedUnicodeEscape)

/-- Rust `InternalLexer::handle_escaped_character`: decode one escape
sequence in a text literal.  Only `self.lines` is touched, so the line
iterator is threaded explicitly; the result `none` propagates the
`push_unicode_character` panic. -/
def handle_escaped_character (lines : List Line) (line : Line)
    (token_str : Str) (is_raw : Bool) :
    Option (List Line × Option Line × Except LexerError Str) :=
  match line.chars with
  | [] =>
    let acc := if is_raw then (token_str.push '\\').push '\n' else token_str
    match lines with
    | [] => some ([], none, .ok acc)
    | l :: ls => some (ls, some l, .ok (acc ++ l.leading_spaces))
  | c :: rest =>
    let line1 : Line := {line with chars := rest}
    if c = '\\' ∧ is_raw = Bool.false then
      some (lines, some line1, .ok (token_str.push '\\'))
    else if c = '\'' ∧ is_raw = Bool.false then
      some (lines, some line1, .ok (token_str.push '\''))
    else if c = '"' ∧ is_raw = Bool.false then
      some (lines, some line1, .ok (token_str.push '"'))
    else if c = 'a' ∧ is_raw = Bool.false then
      some (lines, some line1, .ok (token_str.push '\x07'))
    else if c = 'b' ∧ is_raw = Bool.false then
      some (lines, some line1, .ok (token_str.push '\x08'))
    else if c = 'f' ∧ is_raw = Bool.false then
      some (lines, some line1, .ok (token_str.push '\x0C'))
    else if c = 'n' ∧ is_raw = Bool.false then
      some (lines, some line1, .ok (token_str.push '\n'))
    else if c = 'r' ∧ is_raw = Bool.false then
      some (lines, some line1, .ok (token_str.push '\r'))
    else if c = 't' ∧ is_raw = Bool.false then
      some (lines, some line1, .ok (token_str.push '\t'))
    else if c = 'v' ∧ is_raw = Bool.false then
      some (lines, some line1, .ok (token_str.push '\x0B'))
    else if char_is_digit c 8 ∧ is_raw = Bool.false then
      match push_octal_character line1 token_str c with
      | some r => some (lines, r.1, r.2)
      | none => none
    else if c = 'x' ∧ is_raw = Bool.false then
      match push_hex_character line1 token_str with
      | some r => some (lines, r.1, r.2)
      | none => none
    else if c = 'N' ∧ is_raw = Bool.false then
      let r := push_named_character line1 token_str
      some (lines, r.1, r.2)
    else if c = 'u' ∧ is_raw = Bool.false then
      match push_unicode_character line1 token_str 4 with
      | some r => some (lines, r.1, r.2)
      | none => none
    else if c = 'U' ∧ is_raw = Bool.false then
      match push_unicode_character line1 token_str 8 with
      | some r => some (lines, r.1, r.2)
      | none => none
    else
      some (lines, some line1, .ok ((token_str.push '\\').push c))

/-- Rust `InternalLexer::process_escape_sequence`: record the line number
of the line holding the backslash, then decode. -/
def process_escape_sequence (lines : List Line) (current_line : Line)
    (token_str : Str) (is_raw : Bool) :
    Option (Nat × Except LexerError Str × Option Line × List Line) :=
  match handle_escaped_character lines current_line token_str is_raw with
  | some (lines1, new_line, res) => some (current_line.number, res, new_line, lines1)
  | none => none

/-- Loop of Rust `InternalLexer::build_string`, fuel-indexed.  Each
iteration consumes one character of the current line or moves to the next
physical line; `none` is exhausted fuel or a propagated panic. -/
def build_string_loop (fuel : Nat) (lines : List Line) (current_line : Line)
    (quote : Char) (is_raw is_long_string : Bool) (first_line_number : Nat)
    (token_str : Str) : Option (Item × Option Line × List Line) :=
  match fuel with
  | 0 => none
  | fuel + 1 =>
    match current_line.chars with
    | c :: rest =>
      let line1 : Line := {current_line with chars := rest}
      if c = '\\' then
        match process_escape_sequence lines line1 token_str is_raw with
        | none => none
        | some (num, res, new_line, lines1) =>
          match res, new_line with
          | .ok new_token_str, some nl =>
            build_string_loop fuel lines1 nl quote is_raw is_long_string
              first_line_number new_token_str
          | .error msg, nl => some ((num, .error msg), nl, lines1)
          | .ok _, none =>
            if is_long_string then
              some ((num + 1, .error .UnterminatedTripleString), none, lines1)
            else
              some ((num + 1, .error .UnterminatedString), none, lines1)
      else if c = quote then
        if is_long_string = Bool.false then
          some ((first_line_number, .ok (.String token_str)), some line1, lines)
        else if line1.chars.head? = some quote ∧ line1.chars[1]? = some quote then
          some ((first_line_number, .ok (.String token_str)),
            some {line1 with chars := line1.chars.tail.tail}, lines)
        else
          build_string_loop fuel lines line1 quote is_raw is_long_string
            first_line_number (token_str.push c)
      else
        build_string_loop fuel lines line1 quote is_raw is_long_string
          first_line_number (token_str.push c)
    | [] =>
      if is_long_string then
        let acc := token_str.push '\n'
        match lines with
        | l :: ls =>
          build_string_loop fuel ls l quote is_raw is_long_string
            first_line_number (acc ++ l.leading_spaces)
        | [] =>
          some ((current_line.number + 1, .error .UnterminatedTripleString),
            none, [])
      else
        some ((current_line.number, .error .UnterminatedString),
          some current_line, lines)

/-- Rust `InternalLexer::build_string`: consume the second pair of quotes
of a triple literal, then run the scanning loop. -/
def build_string (fuel : Nat) (lines : List Line) (line : Line)
    (quote : Char) (is_raw is_long_string : Bool) :
    Option (Item × Option Line × List Line) :=
  let line1 : Line :=
    if is_long_string then {line with chars := line.chars.tail.tail} else line
  build_string_loop fuel lines line1 quote is_raw is_long_string line1.number
    ""

/-- Rust `push_octal_character_byte`: as `push_octal_character` but the
value is truncated to a byte (`v as u8`); no panic is possible. -/
def push_octal_character_byte (line : Line) (token_vec : List Nat) (c : Char) :
    Option Line × Except LexerError (List Nat) :=
  (some (take_octal_digits line c).2,
   .ok (token_vec ++ [from_str_radix (take_octal_digits line c).1 8 % 256]))

/-- Rust `push_hex_character_byte`. -/
def push_hex_character_byte (line : Line) (token_vec : List Nat) :
    Option Line × Except LexerError (List Nat) :=
  match build_n_while 2 line.chars (fun c => char_is_digit c 16) with
  | (some s, cs) =>
    (some {line with chars := cs}, .ok (token_vec ++ [from_str_radix s 16 % 256]))
  | (none, cs) =>
    (some {line with chars := cs}, .error .HexEscapeShort)

/-- Rust `InternalLexer::handle_escaped_character_byte`: decode one
escape sequence in a byte literal.  Note the source's ASCII fallback has
no raw-mode guard and precedes the `InvalidCharacter` arm, so `\u`, `\U`
and `\N` (all ASCII) append a literal backslash and letter. -/
def handle_escaped_character_byte (lines : List Line) (line : Line)
    (token_vec : List Nat) (is_raw : Bool) :
    List Line × Option Line × Except LexerError (List Nat) :=
  match line.chars with
  | [] =>
    let acc := if is_raw then token_vec ++ [char_as_u8 '\\', char_as_u8 '\n']
      else token_vec
    match lines with
    | [] => ([], none, .ok acc)
    | l :: ls =>
      (ls, some l, .ok (acc ++ l.leading_spaces.toList.map char_as_u8))
  | c :: rest =>
    let line1 : Line := {line with chars := rest}
    if c = '\\' ∧ is_raw = Bool.false then
      (lines, some line1, .ok (token_vec ++ [char_as_u8 '\\']))
    else if c = '\'' ∧ is_raw = Bool.false then
      (lines, some line1, .ok (token_vec ++ [char_as_u8 '\'']))
    else if c = '"' ∧ is_raw = Bool.false then
      (lines, some line1, .ok (token_vec ++ [char_as_u8 '"']))
    else if c = 'a' ∧ is_raw = Bool.false then
      (lines, some line1, .ok (token_vec ++ [7]))
    else if c = 'b' ∧ is_raw = Bool.false then
      (lines, some line1, .ok (token_vec ++ [8]))
    else if c = 'f' ∧ is_raw = Bool.false then
      (lines, some line1, .ok (token_vec ++ [12]))
    else if c = 'n' ∧ is_raw = Bool.false then
      (lines, some line1, .ok (token_vec ++ [10]))
    else if c = 'r' ∧ is_raw = Bool.false then
      (lines, some line1, .ok (token_vec ++ [13]))
    else if c = 't' ∧ is_raw = Bool.false then
      (lines, some line1, .ok (token_vec ++ [9]))
    else if c = 'v' ∧ is_raw = Bool.false then
      (lines, some line1, .ok (token_vec ++ [11]))
    else if char_is_digit c 8 ∧ is_raw = Bool.false then
      let r := push_octal_character_byte line1 token_vec c
      (lines, r.1, r.2)
    else if c = 'x' ∧ is_raw = Bool.false then
      let r := push_hex_character_byte line1 token_vec
      (lines, r.1, r.2)
    else if char_is_ascii c then
      (lines, some line1, .ok (token_vec ++ [char_as_u8 '\\', char_as_u8 c]))
    else
      (lines, some line1, .error (.InvalidCharacter c))

/-- Rust `InternalLexer::process_escape_sequence_byte`. -/
def process_escape_sequence_byte (lines : List Line) (current_line : Line)
    (token_vec : List Nat) (is_raw : Bool) :
    Nat × Except LexerError (List Nat) × Option Line × List Line :=
  let r := handle_escaped_character_byte lines current_line token_vec is_raw
  (current_line.number, r.2.2, r.2.1, r.1)

/-- Loop of Rust `InternalLexer::build_string_byte`, fuel-indexed. -/
def build_string_byte_loop (fuel : Nat) (lines : List Line)
    (current_line : Line) (quote : Char) (is_raw is_long_string : Bool)
    (first_line_number : Nat) (token_vec : List Nat) :
    Option (Item × Option Line × List Line) :=
  match fuel with
  | 0 => none
  | fuel + 1 =>
    match current_line.chars with
    | c :: rest =>
      let line1 : Line := {current_line with chars := rest}
      if c = '\\' then
        match process_escape_sequence_byte lines line1 token_vec is_raw with
        | (num, res, new_line, lines1) =>
          match res, new_line with
          | .ok new_token_vec, some nl =>
            build_string_byte_loop fuel lines1 nl quote is_raw is_long_string
              first_line_number new_token_vec
          | .error msg, nl => some ((num, .error msg), nl, lines1)
          | .ok _, none =>
            if is_long_string then
              some ((num + 1, .error .UnterminatedTripleString), none, lines1)
            else
              some ((num + 1, .error .UnterminatedString), none, lines1)
      else if c = quote then
        if is_long_string = Bool.false then
          some ((first_line_number, .ok (.Bytes token_vec)), some line1, lines)
        else if line1.chars.head? = some quote ∧ line1.chars[1]? = some quote then
          some ((first_line_number, .ok (.Bytes token_vec)),
            some {line1 with chars := line1.chars.tail.tail}, lines)
        else
          build_string_byte_loop fuel lines line1 quote is_raw is_long_string
            first_line_number (token_vec ++ [char_as_u8 c])
      else
        build_string_byte_loop fuel lines line1 quote is_raw is_long_string
          first_line_number (token_vec ++ [char_as_u8 c])
    | [] =>
      if is_long_string then
        let acc := token_vec ++ [char_as_u8 '\n']
        match lines with
        | l :: ls =>
          build_string_byte_loop fuel ls l quote is_raw is_long_string
            first_line_number (acc ++ l.leading_spaces.toList.map char_as_u8)
        | [] =>
          some ((current_line.number + 1, .error .UnterminatedTripleString),
            none, [])
      else
        some ((current_line.number, .error .UnterminatedString),
          some current_line, lines)

/-- Rust `InternalLexer::build_string_byte`. -/
def build_string_byte (fuel : Nat) (lines : List Line) (line : Line)
    (quote : Char) (is_raw is_long_string : Bool) :
    Option (Item × Option Line × List Line) :=
  let line1 : Line :=
    if is_long_string then {line with chars := line.chars.tail.tail} else line
  build_string_byte_loop fuel lines line1 quote is_raw is_long_string
    line1.number []

/-- Rust `InternalLexer::process_string`: strip an optional `u`/`U` and
an optional `r`/`R` prefix, read the quote, detect a triple quote.  (The
quote `next().unwrap()` is guarded by the dispatch, so the empty case is
`none`.) -/
def process_string (fuel : Nat) (lines : List Line) (line : Line) :
    Option (Item × Option Line × List Line) :=
  let lineA : Line :=
    if line.chars.head? = some 'u' ∨ line.chars.head? = some 'U' then
      {line with chars := line.chars.tail}
    else line
  let is_raw : Bool :=
    lineA.chars.head? = some 'r' ∨ lineA.chars.head? = some 'R'
  let lineB : Line :=
    if is_raw then {lineA with chars := lineA.chars.tail} else lineA
  match lineB.chars with
  | [] => none
  | quote :: rest =>
    let lineC : Line := {lineB with chars := rest}
    let is_long_string : Bool :=
      rest.head? = some quote ∧ rest[1]? = some quote
    build_string fuel lines lineC quote is_raw is_long_string

/-- Rust `InternalLexer::process_byte_string`: strip the `b`/`r` prefix
pair (raw when either of the first two characters is `r`/`R`), read the
quote, detect a triple quote. -/
def process_byte_string (fuel : Nat) (lines : List Line) (line : Line) :
    Option (Item × Option Line × List Line) :=
  let is_raw : Bool :=
    line.chars[1]? = some 'r' ∨ line.chars[1]? = some 'R' ∨
    line.chars.head? = some 'r' ∨ line.chars.head? = some 'R'
  let lineB : Line :=
    if is_raw then {line with chars := line.chars.tail.tail}
    else {line with chars := line.chars.tail}
  match lineB.chars with
  | [] => none
  | quote :: rest =>
    let lineC : Line := {lineB with chars := rest}
    let is_long_string : Bool :=
      rest.head? = some quote ∧ rest[1]? = some quote
    build_string_byte fuel lines lineC quote is_raw is_long_string


/-- Result of one pull of the internal lexer: the emitted item (`none`
once the stream is exhausted), the stored current line, and the updated
state. -/
abbrev StepResult := Option Item × Option Line × LexState

/-- Rust `InternalLexer::process_dedents`: drain the dedent counter one
item per pull; the value `-1` spends the misalignment error. -/
def process_dedents (st : LexState) (current_line : Line) : StepResult :=
  if st.dedent_count = -1 then
    (some (current_line.number, .error .Dedent), some current_line,
     {st with dedent_count := 0})
  else
    let d := st.dedent_count + (if st.dedent_count < 0 then 1 else -1)
    (some (current_line.number, .ok .Dedent), some current_line,
     {st with dedent_count := d})

/-- Wrapper for the state-free processors (`process_identifier`,
`process_number`): emit the item, keep the line, leave the state.  -/
def lift_plain (st : LexState) (r : Item × Line) : Option StepResult :=
  some (some r.1, some r.2, st)

/-- Wrapper for the string processors: they touch only `self.lines`. -/
def lift_string (st : LexState) (r : Option (Item × Option Line × List Line)) :
    Option StepResult :=
  match r with
  | none => none
  | some (item, cur, lines1) => some (some item, cur, {st with lines := lines1})

/-- Rust `InternalLexer::process_symbols`. -/
def process_symbols (st : LexState) (line : Line) : Option StepResult :=
  let r := build_symbol st.open_braces line
  some (some r.2.1, some r.2.2, {st with open_braces := r.1})

/-- Rust `InternalLexer::process_line_start`: indentation evaluation at
the start of a physical line.  `rec` is the recursive continuation
`next_token_line` at one unit less fuel (the source recursion).  The
indent stack has its top at the list head; an empty stack is the
source's `panic!` (`none`). -/
def process_line_start (rec : LexState → Option Line → Option StepResult)
    (st : LexState) (newline : Line) : Option StepResult :=
  match st.indent_stack.head? with
  | none => none
  | some previous_indent =>
    if newline.chars.head? = Option.none ∨ newline.chars.head? = some '#' then
      rec st none
    else if previous_indent < newline.indentation then
      some (some (newline.number, .ok .Indent), some newline,
        {st with indent_stack := newline.indentation :: st.indent_stack})
    else if newline.indentation < previous_indent then
      let kept := st.indent_stack.dropWhile (fun w => newline.indentation < w)
      match kept.head? with
      | none => none
      | some top =>
        let popped : Nat := st.indent_stack.length - kept.length
        let dc : Int := if top ≠ newline.indentation then -(popped : Int)
          else (popped : Int)
        rec {st with indent_stack := kept, dedent_count := dc} (some newline)
    else rec st (some newline)

/-- Rust `InternalLexer::process_end_of_line`: `Newline` at depth zero,
silent advance to the next physical line otherwise (`rec` as in
`process_line_start`). -/
def process_end_of_line (rec : LexState → Option Line → Option StepResult)
    (st : LexState) (line : Line) : Option StepResult :=
  if st.open_braces = 0 then
    some (some (line.number, .ok .Newline), none, st)
  else
    match st.lines with
    | [] => rec st none
    | l :: ls => rec {st with lines := ls} (some l)

/-- Rust `InternalLexer::process_line_join`: a backslash at end of line
joins to the next physical line; otherwise `BadLineContinuation` with the
backslash consumed. -/
def process_line_join (rec : LexState → Option Line → Option StepResult)
    (st : LexState) (current_line : Line) : Option StepResult :=
  let line1 : Line := {current_line with chars := current_line.chars.tail}
  match line1.chars.head? with
  | none =>
    match st.lines with
    | [] => rec st none
    | l :: ls => rec {st with lines := ls} (some l)
  | some _ =>
    some (some (line1.number, .error .BadLineContinuation), some line1, st)

/-- Rust `InternalLexer::next_token_line`, fuel-indexed (the source
recursion consumes a physical line at every recursive call; `none` is
exhausted fuel or a propagated panic). -/
def next_token_line : Nat → LexState → Option Line → Option StepResult
  | 0, _, _ => none
  | fuel + 1, st, cur =>
    match cur with
    | some current_line =>
      if st.dedent_count ≠ 0 then some (process_dedents st current_line)
      else
        let cl := consume_space_to_next current_line
        match cl.chars.head? with
        | none => process_end_of_line (next_token_line fuel) st cl
        | some c =>
          if c = '#' then process_end_of_line (next_token_line fuel) st cl
          else if c = 'u' ∨ c = 'U' then
            if cl.chars[1]? = some '\'' ∨ cl.chars[1]? = some '"' then
              lift_string st (process_string fuel st.lines cl)
            else lift_plain st (build_identifier cl)
          else if c = 'r' ∨ c = 'R' then
            if cl.chars[1]? = some '\'' ∨ cl.chars[1]? = some '"' then
              lift_string st (process_string fuel st.lines cl)
            else if (cl.chars[1]? = some 'b' ∨ cl.chars[1]? = some 'B') ∧
                (cl.chars[2]? = some '\'' ∨ cl.chars[2]? = some '"') then
              lift_string st (process_byte_string fuel st.lines cl)
            else lift_plain st (build_identifier cl)
          else if c = 'b' ∨ c = 'B' then
            if (cl.chars[1]? = some '\'' ∨ cl.chars[1]? = some '"') ∨
                ((cl.chars[1]? = some 'r' ∨ cl.chars[1]? = some 'R') ∧
                 (cl.chars[2]? = some '\'' ∨ cl.chars[2]? = some '"')) then
              lift_string st (process_byte_string fuel st.lines cl)
            else lift_plain st (build_identifier cl)
          else if is_xid_start c then lift_plain st (build_identifier cl)
          else if char_is_digit c 10 then lift_plain st (build_number cl)
          else if c = '.' then
            match cl.chars[1]? with
            | some d =>
              if char_is_digit d 10 then lift_plain st (build_number cl)
              else process_symbols st cl
            | none => process_symbols st cl
          else if c = '\\' then process_line_join (next_token_line fuel) st cl
          else if c = '\'' ∨ c = '"' then
            lift_string st (process_string fuel st.lines cl)
          else process_symbols st cl
    | none =>
      match st.lines with
      | [] =>
        if st.indent_stack.length ≤ 1 then some (none, none, st)
        else
          some (some (0, .ok .Dedent), none,
            {st with indent_stack := st.indent_stack.tail})
      | l :: ls => process_line_start (next_token_line fuel) {st with lines := ls} l

/-- Collect up to `n` pulls of the internal lexer (each pull gets the
full `fuel`); stops early when the stream ends, `none` on exhausted fuel
or a panic. -/
def pull_items (fuel : Nat) (n : Nat) (st : LexState) (cur : Option Line) :
    Option (List Item × LexState × Option Line) :=
  match n with
  | 0 => some ([], st, cur)
  | n + 1 =>
    match next_token_line fuel st cur with
    | none => none
    | some (none, cur1, st1) => some ([], st1, cur1)
    | some (some item, cur1, st1) =>
      match pull_items fuel n st1 cur1 with
      | none => none
      | some (l, st2, cur2) => some (item :: l, st2, cur2)

/-- Run the internal lexer from the initial state. -/
def lex_internal (fuel n : Nat) (input : List Str) : Option (List Item) :=
  match pull_items fuel n (init_state input) none with
  | some (l, _, _) => some l
  | none => none

/-- The peek test of `BytesJoiningLexer::bytes_follows`: the payload of
an upcoming `Ok(Bytes)` item, `none` for any other item. -/
def item_bytes_content : Item → Option (List Nat)
  | (_, .ok (.Bytes bs)) => some bs
  | _ => none

/-- Maximal leading run of `Ok(Bytes)` items: the concatenated payloads
and the rest (the repeated `bytes_follows` peeks of
`BytesJoiningLexer`). -/
def take_bytes_run : List Item → List Nat × List Item
  | [] => ([], [])
  | x :: rest =>
    match item_bytes_content x with
    | some bs =>
      let r := take_bytes_run rest
      (bs ++ r.1, r.2)
    | none => ([], x :: rest)

theorem take_bytes_run_length_le (l : List Item) :
    (take_bytes_run l).2.length ≤ l.length := by
  induction l with
  | nil => simp [take_bytes_run]
  | cons x rest ih =>
    cases hx : item_bytes_content x <;> simp [take_bytes_run, hx] <;> omega

/-- Rust `BytesJoiningLexer::next` as a stream transformation, fuel-
indexed for structural recursion (each step consumes at least one item,
so fuel `l.length`, supplied by `join_bytes`, always suffices). -/
def join_bytes_go : Nat → List Item → List Item
  | 0, l => l
  | _ + 1, [] => []
  | fuel + 1, x :: rest =>
    match item_bytes_content x with
    | some bs =>
      let r := take_bytes_run rest
      (x.1, .ok (.Bytes (bs ++ r.1))) :: join_bytes_go fuel r.2
    | none => x :: join_bytes_go fuel rest

/-- Merge every maximal run of consecutive `Ok(Bytes)` items into one,
tagged with the first constituent's line number. -/
def join_bytes (l : List Item) : List Item := join_bytes_go l.length l

/-- The peek test of `StringJoiningLexer::string_follows`: the content of
an upcoming `Ok(String)` item (its `lexeme`), `none` for any other
item. -/
def item_string_content : Item → Option Str
  | (_, .ok (.String s)) => some s
  | _ => none

/-- Maximal leading run of `Ok(String)` items: concatenated contents and
the rest (the repeated `string_follows` peeks of `StringJoiningLexer`). -/
def take_string_run : List Item → Str × List Item
  | [] => ("", [])
  | x :: rest =>
    match item_string_content x with
    | some s =>
      let r := take_string_run rest
      (s ++ r.1, r.2)
    | none => ("", x :: rest)

theorem take_string_run_length_le (l : List Item) :
    (take_string_run l).2.length ≤ l.length := by
  induction l with
  | nil => simp [take_string_run]
  | cons x rest ih =>
    cases hx : item_string_content x <;> simp [take_string_run, hx] <;> omega

/-- Rust `StringJoiningLexer::next` as a stream transformation, fuel-
indexed as in `join_bytes_go`. -/
def join_strings_go : Nat → List Item → List Item
  | 0, l => l
  | _ + 1, [] => []
  | fuel + 1, x :: rest =>
    match item_string_content x with
    | some s =>
      let r := take_string_run rest
      (x.1, .ok (.String (s ++ r.1))) :: join_strings_go fuel r.2
    | none => x :: join_strings_go fuel rest

/-- Merge every maximal run of consecutive `Ok(String)` items into one,
tagged with the first constituent's line number. -/
def join_strings (l : List Item) : List Item := join_strings_go l.length l

/-- Concatenation of a list of strings (for stating the joining-stage
properties). -/
def str_concat : List Str → Str
  | [] => ""
  | s :: rest => s ++ str_concat rest

/-- Rust `Lexer::new` pipeline: internal lexer, then byte joining, then
string joining. -/
def lex (fuel n : Nat) (input : List Str) : Option (List Item) :=
  match lex_internal fuel n input with
  | some l => some (join_strings (join_bytes l))
  | none => none

/-- The layout tokens of claim C9: produced by the indentation and
end-of-line machinery only, never by the in-line scanners. -/
def Token.is_layout : Token → Bool
  | .Newline => true
  | .Indent => true
  | .Dedent => true
  | _ => false

/-- A scanner result that cannot carry a layout token. -/
def ok_layout_free (r : ResultToken) : Prop :=
  ∀ t, r = .ok t → t.is_layout = false

/-- Single-pull invariant of claim C9, for a state with positive bracket
depth and no pending dedent drain: the dedent counter stays zero, the
emitted token is never `Newline` or `Indent`, a `Dedent` can only be the
synthetic end-of-input drain (line number 0, one stack level popped, all
input consumed), any other pull leaves the indent stack unchanged, and a
dropped current line means the line iterator is exhausted. -/
def StepInv (st : LexState) (it : Option Item) (cur2 : Option Line)
    (st2 : LexState) : Prop :=
  st2.dedent_count = 0 ∧
  (∀ n tok, it = some (n, tok) → tok ≠ .ok .Newline ∧ tok ≠ .ok .Indent) ∧
  (∀ n, it = some (n, .ok .Dedent) →
    n = 0 ∧ cur2 = none ∧ st2.lines = [] ∧
    st2.indent_stack = st.indent_stack.tail) ∧
  ((∀ n, it ≠ some (n, .ok .Dedent)) → st2.indent_stack = st.indent_stack) ∧
  (cur2 = none → st2.lines = [])


/-! Helper lemmas about characters. -/

/-- Character order agrees with code-point order. -/
theorem char_le_toNat {a b : Char} : a ≤ b ↔ a.toNat ≤ b.toNat := Iff.rfl

/-- Characters with equal code points are equal. -/
theorem char_eq_of_toNat {c d : Char} (h : c.toNat = d.toNat) : c = d :=
  Char.ext (UInt32.ext h)

/-- Rust `is_digit(1)` holds exactly for the character `0`. -/
theorem char_is_digit_one (k : Char) : char_is_digit k 1 = decide (k = '0') := by
  have e0 : ('0').toNat = 48 := rfl
  have e9 : ('9').toNat = 57 := rfl
  unfold char_is_digit char_to_digit
  split_ifs with h1 h2 h3
  · obtain ⟨ha, hb⟩ := h1
    rw [char_le_toNat, e0] at ha
    rw [char_le_toNat, e9] at hb
    simp only [decide_eq_decide, e0]
    constructor
    · intro hk
      simp at hk
      exact char_eq_of_toNat (by rw [e0]; omega)
    · intro hk
      subst hk
      decide
  · have hne : k ≠ '0' := fun hk => h1 (by subst hk; exact (by decide))
    simp [hne]
  · have hne : k ≠ '0' := fun hk => h1 (by subst hk; exact (by decide))
    simp [hne]
  · have hne : k ≠ '0' := fun hk => h1 (by subst hk; exact (by decide))
    simp [hne]

/-- Rust `is_digit(10)` constrains the code point to the digit range. -/
theorem char_is_digit_ten_bounds (c : Char) (h : char_is_digit c 10 = true) :
    48 ≤ c.toNat ∧ c.toNat ≤ 57 := by
  have e0 : ('0').toNat = 48 := rfl
  have e9 : ('9').toNat = 57 := rfl
  unfold char_is_digit char_to_digit at h
  split_ifs at h with h1 h2 h3
  · obtain ⟨ha, hb⟩ := h1
    rw [char_le_toNat, e0] at ha
    rw [char_le_toNat, e9] at hb
    exact ⟨ha, hb⟩
  · simp at h
  · simp at h

/-- Every digit in any radix is an ASCII character. -/
theorem char_is_digit_ascii (c : Char) (r : Nat) (h : char_is_digit c r = true) :
    c.toNat < 128 := by
  have e9 : ('9').toNat = 57 := rfl
  have ez : ('z').toNat = 122 := rfl
  have eZ : ('Z').toNat = 90 := rfl
  unfold char_is_digit char_to_digit at h
  split_ifs at h with h1 h2 h3
  · have hb := h1.2
    rw [char_le_toNat, e9] at hb
    omega
  · have hb := h2.2
    rw [char_le_toNat, ez] at hb
    omega
  · have hb := h3.2
    rw [char_le_toNat, eZ] at hb
    omega

/-! Claim theorems. -/

/-- C1 (counterexample): on the input `"    a\n        b\n  c"` the third
line dedents two levels to a width (2) present on no stack level; the
lexer emits the `Ok(Dedent)` for the extra level FIRST (position 6) and
the `Error(Dedent)` LAST (position 7), refuting the claimed order
"exactly one Error(Dedent) immediately followed by the Ok(Dedent)
tokens". -/
theorem C1_counterexample :
    lex 100 20 ["    a", "        b", "  c"] =
      some [(1, .ok .Indent), (1, .ok (.Identifier "a")), (1, .ok .Newline),
            (2, .ok .Indent), (2, .ok (.Identifier "b")), (2, .ok .Newline),
            (3, .ok .Dedent), (3, .error .Dedent),
            (3, .ok (.Identifier "c")), (3, .ok .Newline)] := rfl

/-- C2 (code bug): `build_symbol` on `")"` with the bracket counter at 0
evaluates `cmp::max(0, 0u32 - 1)`; the subtraction underflows before the
clamp (wrapping to `2^32 - 1` in release builds, aborting in debug
builds), so the counter does not stay at 0. -/
theorem C2_theorem :
    clamped_dec 0 = 4294967295 ∧
    build_symbol 0 (mk_line 1 ")") =
      (4294967295, (1, .ok .Rparen), ⟨1, 0, "", []⟩) ∧
    (build_symbol 0 (mk_line 1 ")")).1 ≠ 0 := by
  refine ⟨rfl, rfl, ?_⟩
  decide

/-- C3 (code bug): the catch-all arm of `build_symbol` only peeks at the
offending character and never consumes it, so on `"$"` the line cursor is
unchanged and every pull of the lexer yields the same
`Error(InvalidSymbol('$'))` forever — no forward progress, contradicting
the claim.  (Only the special `'!'` arm consumes its character, as the
third conjunct shows.) -/
theorem C3_theorem :
    build_symbol 0 (mk_line 1 "$") =
      (0, (1, .error (.InvalidSymbol '$')), mk_line 1 "$") ∧
    pull_items 100 3 (init_state ["$"]) none =
      some ([(1, .error (.InvalidSymbol '$')), (1, .error (.InvalidSymbol '$')),
             (1, .error (.InvalidSymbol '$'))],
            ⟨[0], 0, 0, []⟩, some ⟨1, 0, "", ['$']⟩) ∧
    build_symbol 0 (mk_line 1 "!a") =
      (0, (1, .error (.InvalidSymbol '!')), ⟨1, 0, "", ['a']⟩) :=
  ⟨rfl, rfl, rfl⟩

/-- C4 (counterexample): inside a non-raw byte literal the escape `\u` is
NOT rejected with `InvalidCharacter`: `u` is ASCII, so the fallback arm
of `handle_escaped_character_byte` appends the literal bytes `92` (`\`)
and `117` (`u`), and `b"A"` scans to `Bytes [92,117,48,48,52,49]`. -/
theorem C4_counterexample :
    handle_escaped_character_byte [] (mk_line 1 "u0041'") [] Bool.false =
      ([], some ⟨1, 0, "", ['0', '0', '4', '1', '\'']⟩, .ok [92, 117]) ∧
    process_byte_string 100 [] (mk_line 1 "b'\\u0041'") =
      some ((1, .ok (.Bytes [92, 117, 48, 48, 52, 49])),
        some ⟨1, 0, "", []⟩, []) :=
  ⟨rfl, rfl⟩

/-- C5 (counterexample): after the `Error(UnterminatedString)` on line 1
of `"'abc\nx"`, the remainder of the input is NOT consumed: the next pull
emits `Newline` and line 2 is scanned normally. -/
theorem C5_counterexample :
    lex 100 20 ["'abc", "x"] =
      some [(1, .error .UnterminatedString), (1, .ok .Newline),
            (2, .ok (.Identifier "x")), (2, .ok .Newline)] := rfl

/-- C9 (counterexample): on `"if 1:\n  (x"` the state after seven pulls
has bracket depth 1 (the `(` is unclosed) and a non-empty indent stack;
the next pull nevertheless emits the synthetic end-of-input `Ok(Dedent)`
(line 0) and pops the stack — a Dedent emitted, and the stack mutated,
while the depth counter is greater than 0. -/
theorem C9_counterexample :
    pull_items 100 7 (init_state ["if 1:", "  (x"]) none =
      some ([(1, .ok .If), (1, .ok (.DecInteger "1")), (1, .ok .Colon),
             (1, .ok .Newline), (2, .ok .Indent), (2, .ok .Lparen),
             (2, .ok (.Identifier "x"))],
            ⟨[2, 0], 0, 1, []⟩, some ⟨2, 2, "  ", []⟩) ∧
    next_token_line 100 ⟨[2, 0], 0, 1, []⟩ (some ⟨2, 2, "  ", []⟩) =
      some (some (0, .ok .Dedent), none, ⟨[0], 0, 1, []⟩) :=
  ⟨rfl, rfl⟩

/-- C10 (code bug): `char::from_u32` is `none` on the surrogate value
`0xD800`, so `push_unicode_character` on the 4-hex-digit escape `\ud800`
reaches the `unwrap` failure branch (modelled `none` = panic) instead of
returning a token or a `LexerError`; a non-surrogate escape such as
`☯` decodes normally. -/
theorem C10_theorem :
    charFromU32 0xD800 = none ∧
    push_unicode_character (mk_line 1 "d800'") "" 4 = none ∧
    push_unicode_character (mk_line 1 "262f'") "" 4 =
      some (some ⟨1, 0, "", ['\'']⟩, .ok "☯") :=
  ⟨rfl, rfl, rfl⟩

/-- One successful pull prepends its item to the remaining pulls. -/
theorem pull_items_succ_of_step {fuel n : Nat} {st st1 st2 : LexState}
    {cur cur1 cur2 : Option Line} {item : Item} {l : List Item}
    (h1 : next_token_line fuel st cur = some (some item, cur1, st1))
    (h2 : pull_items fuel n st1 cur1 = some (l, st2, cur2)) :
    pull_items fuel (n + 1) st cur = some (item :: l, st2, cur2) := by
  simp [pull_items, h1, h2]

/-- Drain of the end-of-input dedents: from any state whose line iterator
is exhausted and with no stored current line, pulling once per stack
level yields one `(0, Ok(Dedent))` per level above the bottom and leaves
exactly the bottom level. -/
theorem drain_end_dedents (f : Nat) (dc : Int) (ob : Nat) (stk : List Nat) :
    pull_items (f + 1) stk.length ⟨stk, dc, ob, []⟩ none =
      some (List.replicate (stk.length - 1) (0, .ok .Dedent),
        ⟨stk.drop (stk.length - 1), dc, ob, []⟩, none) := by
  induction stk with
  | nil => simp [pull_items]
  | cons a rest ih =>
    cases rest with
    | nil => simp [pull_items, next_token_line]
    | cons b rest2 =>
      have step : next_token_line (f + 1) ⟨a :: b :: rest2, dc, ob, []⟩ none =
          some (some (0, .ok .Dedent), none, ⟨b :: rest2, dc, ob, []⟩) := by
        simp [next_token_line]
      have hp := pull_items_succ_of_step step ih
      simpa [List.replicate_succ] using hp

/-- C6: once the physical lines are exhausted (empty line iterator, no
stored current line), the lexer emits exactly one `Ok(Dedent)` per
indent-stack level above the base sentinel, one per pull, each tagged
with line number 0; the stack is left at depth 1 and only then does the
next pull end the sequence. -/
theorem C6_theorem (f : Nat) (st : LexState) (h : st.lines = []) :
    pull_items (f + 1) st.indent_stack.length st none =
      some (List.replicate (st.indent_stack.length - 1) (0, .ok .Dedent),
        {st with indent_stack := st.indent_stack.drop (st.indent_stack.length - 1)},
        none) ∧
    (st.indent_stack ≠ [] →
      (st.indent_stack.drop (st.indent_stack.length - 1)).length = 1 ∧
      next_token_line (f + 1)
          {st with indent_stack :=
            st.indent_stack.drop (st.indent_stack.length - 1)} none =
        some (none, none,
          {st with indent_stack :=
            st.indent_stack.drop (st.indent_stack.length - 1)})) := by
  obtain ⟨stk, dc, ob, lines⟩ := st
  simp only at h
  subst h
  constructor
  · exact drain_end_dedents f dc ob stk
  · intro hne
    have hlen : (stk.drop (stk.length - 1)).length = 1 := by
      have : stk.length ≥ 1 := List.length_pos.mpr hne
      simp [List.length_drop]
      omega
    refine ⟨hlen, ?_⟩
    simp [next_token_line, hlen]

/-- Witness for C6: a state with stack `[4, 2, 0]` and no input left
drains to two `(0, Ok(Dedent))` items and ends. -/
theorem C6_witness :
    pull_items 1 3 ⟨[4, 2, 0], 0, 0, []⟩ none =
      some ([(0, .ok .Dedent), (0, .ok .Dedent)], ⟨[0], 0, 0, []⟩, none) := by
  simpa using (C6_theorem 0 ⟨[4, 2, 0], 0, 0, []⟩ rfl).1


/-- Fuel above the list length is irrelevant to `join_bytes_go`. -/
theorem join_bytes_go_fuel (fuel : Nat) :
    ∀ l : List Item, l.length ≤ fuel → join_bytes_go fuel l = join_bytes l := by
  induction fuel using Nat.strong_induction_on with
  | _ fuel ih =>
    intro l hl
    match fuel, l with
    | 0, [] => rfl
    | fuel + 1, [] => rfl
    | fuel + 1, x :: rest =>
      cases hx : item_bytes_content x with
      | some bs =>
        have h2 : (take_bytes_run rest).2.length ≤ rest.length :=
          take_bytes_run_length_le rest
        have h1 : (take_bytes_run rest).2.length ≤ fuel := by
          simp at hl
          omega
        simp only [join_bytes_go, join_bytes, List.length_cons, hx]
        rw [ih fuel (Nat.lt_succ_self fuel) _ h1,
          ih rest.length (by simp at hl; omega) _ h2]
      | none =>
        have h1 : rest.length ≤ fuel := by simp at hl; omega
        simp only [join_bytes_go, join_bytes, List.length_cons, hx]
        rw [ih fuel (Nat.lt_succ_self fuel) _ h1,
          ih rest.length (by simp at hl; omega) _ (Nat.le_refl _)]

/-- Fuel above the list length is irrelevant to `join_strings_go`. -/
theorem join_strings_go_fuel (fuel : Nat) :
    ∀ l : List Item, l.length ≤ fuel → join_strings_go fuel l = join_strings l := by
  induction fuel using Nat.strong_induction_on with
  | _ fuel ih =>
    intro l hl
    match fuel, l with
    | 0, [] => rfl
    | fuel + 1, [] => rfl
    | fuel + 1, x :: rest =>
      cases hx : item_string_content x with
      | some s =>
        have h2 : (take_string_run rest).2.length ≤ rest.length :=
          take_string_run_length_le rest
        have h1 : (take_string_run rest).2.length ≤ fuel := by
          simp at hl
          omega
        simp only [join_strings_go, join_strings, List.length_cons, hx]
        rw [ih fuel (Nat.lt_succ_self fuel) _ h1,
          ih rest.length (by simp at hl; omega) _ h2]
      | none =>
        have h1 : rest.length ≤ fuel := by simp at hl; omega
        simp only [join_strings_go, join_strings, List.length_cons, hx]
        rw [ih fuel (Nat.lt_succ_self fuel) _ h1,
          ih rest.length (by simp at hl; omega) _ (Nat.le_refl _)]


/-- A leading block of `Ok(String)` items followed by a non-string item
is consumed whole by `take_string_run`. -/
theorem take_string_run_append (p : List (Nat × Str)) (rest : List Item)
    (hrest : ∀ x, rest.head? = some x → item_string_content x = none) :
    take_string_run (p.map (fun q => (q.1, .ok (.String q.2))) ++ rest) =
      (str_concat (p.map Prod.snd), rest) := by
  induction p with
  | nil =>
    cases rest with
    | nil => rfl
    | cons x r =>
      have hx := hrest x rfl
      simp [take_string_run, hx, str_concat]
  | cons q p ih =>
    simp [take_string_run, item_string_content, ih, str_concat]

/-- A leading block of `Ok(Bytes)` items followed by a non-bytes item is
consumed whole by `take_bytes_run`. -/
theorem take_bytes_run_append (p : List (Nat × List Nat)) (rest : List Item)
    (hrest : ∀ x, rest.head? = some x → item_bytes_content x = none) :
    take_bytes_run (p.map (fun q => (q.1, .ok (.Bytes q.2))) ++ rest) =
      ((p.map Prod.snd).flatten, rest) := by
  induction p with
  | nil =>
    cases rest with
    | nil => rfl
    | cons x r =>
      have hx := hrest x rfl
      simp [take_bytes_run, hx]
  | cons q p ih =>
    simp [take_bytes_run, item_bytes_content, ih]

/-- C8: each maximal run of consecutive `Ok(String)` items is merged by
the string-joining stage into one `String` token holding the
concatenated contents, tagged with the first constituent's line number;
the same holds for runs of `Ok(Bytes)` items under the byte-joining
stage; a `Bytes` head passes through the string joiner unmerged and a
`String` head passes through the byte joiner unmerged; and the full
pipeline turns `"'a' 'b'"` into the single token `String("ab")`. -/
theorem C8_theorem :
    (∀ (n : Nat) (s : Str) (p : List (Nat × Str)) (rest : List Item),
      (∀ x, rest.head? = some x → item_string_content x = none) →
      join_strings ((n, .ok (.String s)) ::
          (p.map (fun q => (q.1, .ok (.String q.2))) ++ rest)) =
        (n, .ok (.String (s ++ str_concat (p.map Prod.snd)))) ::
          join_strings rest) ∧
    (∀ (n : Nat) (bs : List Nat) (p : List (Nat × List Nat)) (rest : List Item),
      (∀ x, rest.head? = some x → item_bytes_content x = none) →
      join_bytes ((n, .ok (.Bytes bs)) ::
          (p.map (fun q => (q.1, .ok (.Bytes q.2))) ++ rest)) =
        (n, .ok (.Bytes (bs ++ (p.map Prod.snd).flatten))) ::
          join_bytes rest) ∧
    (∀ (n : Nat) (bs : List Nat) (rest : List Item),
      join_strings ((n, .ok (.Bytes bs)) :: rest) =
        (n, .ok (.Bytes bs)) :: join_strings rest) ∧
    (∀ (n : Nat) (s : Str) (rest : List Item),
      join_bytes ((n, .ok (.String s)) :: rest) =
        (n, .ok (.String s)) :: join_bytes rest) ∧
    lex 100 10 ["'a' 'b'"] =
      some [(1, .ok (.String "ab")), (1, .ok .Newline)] := by
  refine ⟨?_, ?_, ?_, ?_, rfl⟩
  · intro n s p rest hrest
    have hrun := take_string_run_append p rest hrest
    show join_strings_go _ _ = _
    simp only [List.length_cons, join_strings_go, item_string_content, hrun]
    rw [join_strings_go_fuel _ _ (by simp)]
  · intro n bs p rest hrest
    have hrun := take_bytes_run_append p rest hrest
    show join_bytes_go _ _ = _
    simp only [List.length_cons, join_bytes_go, item_bytes_content, hrun]
    rw [join_bytes_go_fuel _ _ (by simp)]
  · intro n bs rest
    show join_strings_go _ _ = _
    simp only [List.length_cons, join_strings_go, item_string_content]
    rw [join_strings_go_fuel _ _ (Nat.le_refl _)]
  · intro n s rest
    show join_bytes_go _ _ = _
    simp only [List.length_cons, join_bytes_go, item_bytes_content]
    rw [join_bytes_go_fuel _ _ (Nat.le_refl _)]

/-- Witness for C8: a three-string run with a trailing `Newline` merges
into one token, and a bytes run likewise. -/
theorem C8_witness :
    join_strings [(1, .ok (.String "a")), (1, .ok (.String "b")),
        (2, .ok (.String "c")), (2, .ok .Newline)] =
      [(1, .ok (.String "abc")), (2, .ok .Newline)] ∧
    join_bytes [(1, .ok (.Bytes [1, 2])), (1, .ok (.Bytes [3])),
        (1, .ok .Newline)] =
      [(1, .ok (.Bytes [1, 2, 3])), (1, .ok .Newline)] := by
  constructor
  · have h := C8_theorem.1 1 "a" [(1, "b"), (2, "c")] [(2, .ok .Newline)]
      (by intro x hx; cases hx; rfl)
    simpa [str_concat] using h
  · have h := C8_theorem.2.1 1 [1, 2] [(1, [3])] [(1, .ok .Newline)]
      (by intro x hx; cases hx; rfl)
    simpa using h


/-- A zero-prefixed decimal run that is not all zeros and is not followed
by a float/imaginary marker scans to `Error(MalformedFloat)`
(`is_digit(1)` holds exactly for `0`, so the `dropWhile` below is the
source's zero-run consumption). -/
theorem C7_general (line : Line) (cs : List Char) (d : Char)
    (hch : line.chars = '0' :: cs)
    (hd : (cs.dropWhile (fun k => char_is_digit k 1)).head? = some d)
    (hdig : char_is_digit d 10 = true)
    (hm : ∀ m, ((cs.dropWhile (fun k => char_is_digit k 1)).dropWhile
        (fun k => char_is_digit k 10)).head? = some m →
      ¬(m = '.' ∨ m = 'e' ∨ m = 'E' ∨ m = 'j' ∨ m = 'J')) :
    build_zero_prefixed_number line =
      (.error .MalformedFloat,
       {line with chars :=
          ((cs.dropWhile (fun k => char_is_digit k 1)).dropWhile
            (fun k => char_is_digit k 10))}) := by
  obtain ⟨num, ind, lsp, chars⟩ := line
  simp only at hch
  subst hch
  cases cs with
  | nil => simp at hd
  | cons c cs2 =>
    by_cases hc0 : c = '0'
    · subst hc0
      have hzdrop : (('0' :: cs2).dropWhile (fun k => char_is_digit k 1)) =
          cs2.dropWhile (fun k => char_is_digit k 1) := by
        simp [List.dropWhile_cons, show char_is_digit '0' 1 = true from rfl]
      rw [hzdrop] at hd hm
      simp only [build_zero_prefixed_number, List.head?_cons]
      rw [if_neg (by decide), if_neg (by decide), if_neg (by decide)]
      simp only [if_true]
      simp only [consume_and_while]
      cases hrest1 : cs2.dropWhile (fun k => char_is_digit k 1) with
      | nil => rw [hrest1] at hd; simp at hd
      | cons d2 t =>
        rw [hrest1] at hd
        have hdd : d2 = d := by simpa using hd
        have hdig2 : char_is_digit d2 10 = true := by rw [hdd]; exact hdig
        simp only [List.head?_cons]
        rw [if_pos hdig2]
        simp only [require_radix_digits, List.head?_cons, if_pos hdig2,
          consume_and_while]
        simp only [require_float_part]
        have hdigdrop : ((d2 :: t).dropWhile (fun k => char_is_digit k 10)) =
            t.dropWhile (fun k => char_is_digit k 10) := by
          simp [List.dropWhile_cons, hdig2]
        rw [hrest1, hdigdrop] at hm
        cases hrest2 : (t.dropWhile (fun k => char_is_digit k 10)).head? with
        | none =>
          simp only [hrest2]
          simp [hzdrop, hrest1, hdigdrop]
        | some m =>
          have hmneg := hm m hrest2
          push_neg at hmneg
          obtain ⟨m1, m2, m3, m4, m5⟩ := hmneg
          simp only [hrest2]
          simp [m1, m2, m3, m4, m5, hzdrop, hrest1, hdigdrop]
    · have hzc : char_is_digit c 1 = false := by
        rw [char_is_digit_one]
        simp [hc0]
      have hzdrop : ((c :: cs2).dropWhile (fun k => char_is_digit k 1)) =
          c :: cs2 := by
        simp [List.dropWhile_cons, hzc]
      rw [hzdrop] at hd hm
      simp only [List.head?_cons] at hd
      have hdc : d = c := (Option.some.inj hd).symm
      subst hdc
      have hbounds := char_is_digit_ten_bounds d hdig
      have hne : ∀ x : Char, x.toNat < 48 ∨ 57 < x.toNat → d ≠ x := by
        intro x hx he
        subst he
        omega
      simp only [build_zero_prefixed_number, List.head?_cons]
      rw [if_neg (by
          rintro (h | h)
          · exact hne 'o' (by right; decide) h
          · exact hne 'O' (by right; decide) h),
        if_neg (by
          rintro (h | h)
          · exact hne 'x' (by right; decide) h
          · exact hne 'X' (by right; decide) h),
        if_neg (by
          rintro (h | h)
          · exact hne 'b' (by right; decide) h
          · exact hne 'B' (by right; decide) h),
        if_neg hc0, if_pos hdig]
      simp only [require_radix_digits, List.head?_cons, if_pos hdig,
        consume_and_while]
      simp only [require_float_part]
      have hdigdrop : ((d :: cs2).dropWhile (fun k => char_is_digit k 10)) =
          cs2.dropWhile (fun k => char_is_digit k 10) := by
        simp [List.dropWhile_cons, hdig]
      rw [hdigdrop] at hm
      cases hrest2 : (cs2.dropWhile (fun k => char_is_digit k 10)).head? with
      | none =>
        simp only [hrest2]
        simp [hzdrop, hdigdrop]
      | some m =>
        have hmneg := hm m hrest2
        push_neg at hmneg
        obtain ⟨m1, m2, m3, m4, m5⟩ := hmneg
        simp only [hrest2]
        simp [m1, m2, m3, m4, m5, hzdrop, hdigdrop]

/-- C7: a zero-prefixed digit run with no radix letter is accepted only
if it is all zeros or immediately followed by `.`/`e`/`E`/`j`/`J`,
otherwise `Error(MalformedFloat)` (first conjunct, with `is_digit(1)`
characterised by the second); in particular `"0123"` alone gives
`Error(MalformedFloat)`, `"0.2"` gives `Float("0.2")`, and `"0b"` gives
`Error(MissingDigits)`. -/
theorem C7_theorem :
    (∀ (line : Line) (cs : List Char) (d : Char),
      line.chars = '0' :: cs →
      (cs.dropWhile (fun k => char_is_digit k 1)).head? = some d →
      char_is_digit d 10 = true →
      (∀ m, ((cs.dropWhile (fun k => char_is_digit k 1)).dropWhile
          (fun k => char_is_digit k 10)).head? = some m →
        ¬(m = '.' ∨ m = 'e' ∨ m = 'E' ∨ m = 'j' ∨ m = 'J')) →
      build_zero_prefixed_number line =
        (.error .MalformedFloat,
         {line with chars :=
            ((cs.dropWhile (fun k => char_is_digit k 1)).dropWhile
              (fun k => char_is_digit k 10))})) ∧
    (∀ k, char_is_digit k 1 = decide (k = '0')) ∧
    build_number (mk_line 1 "0123") =
      ((1, .error .MalformedFloat), ⟨1, 0, "", []⟩) ∧
    build_number (mk_line 1 "0.2") =
      ((1, .ok (.Float "0.2")), ⟨1, 0, "", []⟩) ∧
    build_number (mk_line 1 "0b") =
      ((1, .error .MissingDigits), ⟨1, 0, "", []⟩) :=
  ⟨C7_general, char_is_digit_one, rfl, rfl, rfl⟩

/-- Witness for C7: `"00123x"` is a zero-prefixed run with nonzero digits
followed by `x`, hence `Error(MalformedFloat)` with the cursor on the
`x`. -/
theorem C7_witness :
    build_zero_prefixed_number (mk_line 1 "00123x") =
      (.error .MalformedFloat, ⟨1, 0, "", ['x']⟩) := by
  have h := C7_theorem.1 (mk_line 1 "00123x") ['0', '1', '2', '3', 'x'] '1'
    rfl rfl rfl (by
      intro m hm
      obtain rfl := Option.some.inj (hm : some 'x' = some m)
      decide)
  simpa using h

/-- C1 (amended): a misaligned dedent with counter `-(k+1)` is drained
one item per pull as `k` `Ok(Dedent)` tokens FOLLOWED by exactly one
`Error(Dedent)`, after which the counter is zero and the stored line is
kept, so normal scanning resumes; a clean dedent with counter `k+1`
drains as `k+1` `Ok(Dedent)` tokens. -/
theorem C1_amended :
    (∀ (f : Nat) (st : LexState) (cur : Line) (k : Nat),
      st.dedent_count = -((k : Int) + 1) →
      pull_items (f + 1) (k + 1) st (some cur) =
        some (List.replicate k (cur.number, .ok .Dedent) ++
            [(cur.number, .error .Dedent)],
          {st with dedent_count := 0}, some cur)) ∧
    (∀ (f : Nat) (st : LexState) (cur : Line) (k : Nat),
      st.dedent_count = ((k : Int) + 1) →
      pull_items (f + 1) (k + 1) st (some cur) =
        some (List.replicate (k + 1) (cur.number, .ok .Dedent),
          {st with dedent_count := 0}, some cur)) := by
  constructor
  · intro f st cur k
    induction k generalizing st with
    | zero =>
      intro h
      have step : next_token_line (f + 1) st (some cur) =
          some (some (cur.number, .error .Dedent), some cur,
            {st with dedent_count := 0}) := by
        simp [next_token_line, process_dedents, h]
      have h0 : pull_items (f + 1) 0 {st with dedent_count := 0} (some cur) =
          some ([], {st with dedent_count := 0}, some cur) := rfl
      simpa using pull_items_succ_of_step step h0
    | succ k ih =>
      intro h
      have hne0 : st.dedent_count ≠ 0 := by rw [h]; omega
      have hne1 : ¬(st.dedent_count = -1) := by rw [h]; omega
      have hlt : st.dedent_count < 0 := by rw [h]; omega
      have hd : st.dedent_count + 1 = -((k : Int) + 1) := by rw [h]; push_cast; ring
      have step : next_token_line (f + 1) st (some cur) =
          some (some (cur.number, .ok .Dedent), some cur,
            {st with dedent_count := -((k : Int) + 1)}) := by
        simp [next_token_line, process_dedents, hne0, hne1, hlt, hd]
      have ihs := ih {st with dedent_count := -((k : Int) + 1)} rfl
      have := pull_items_succ_of_step step ihs
      simpa [List.replicate_succ] using this
  · intro f st cur k
    induction k generalizing st with
    | zero =>
      intro h
      have step : next_token_line (f + 1) st (some cur) =
          some (some (cur.number, .ok .Dedent), some cur,
            {st with dedent_count := 0}) := by
        simp [next_token_line, process_dedents, h]
      have h0 : pull_items (f + 1) 0 {st with dedent_count := 0} (some cur) =
          some ([], {st with dedent_count := 0}, some cur) := rfl
      simpa [List.replicate_succ] using pull_items_succ_of_step step h0
    | succ k ih =>
      intro h
      have hne0 : st.dedent_count ≠ 0 := by rw [h]; omega
      have hne1 : ¬(st.dedent_count = -1) := by rw [h]; omega
      have hlt : ¬(st.dedent_count < 0) := by rw [h]; omega
      have hd : st.dedent_count + -1 = ((k : Int) + 1) := by rw [h]; push_cast; ring
      have step : next_token_line (f + 1) st (some cur) =
          some (some (cur.number, .ok .Dedent), some cur,
            {st with dedent_count := ((k : Int) + 1)}) := by
        simp [next_token_line, process_dedents, hne0, hne1, hlt, hd]
      have ihs := ih {st with dedent_count := ((k : Int) + 1)} rfl
      have := pull_items_succ_of_step step ihs
      simpa [List.replicate_succ] using this

/-- Witness for C1 (amended): counter `-2` yields one `Ok(Dedent)` then
the `Error(Dedent)`. -/
theorem C1_amended_witness :
    pull_items 1 2 ⟨[0], -2, 0, []⟩ (some (mk_line 3 "c")) =
      some ([(3, .ok .Dedent), (3, .error .Dedent)],
        ⟨[0], 0, 0, []⟩, some (mk_line 3 "c")) := by
  simpa using C1_amended.1 0 ⟨[0], -2, 0, []⟩ (mk_line 3 "c") 1 (by norm_num)

/-- C4 (amended): in a byte literal, `Error(InvalidCharacter(c))` is
raised exactly when the escaped character `c` is non-ASCII (first
conjunct, any raw mode); the ASCII escapes `\u`, `\U` and `\N` are NOT
invalid — they fall into the unrecognized-escape arm, appending the
literal backslash and letter as two bytes (conjuncts 2-4); recognized
simple and hex escapes decode to a single appended byte (conjuncts
5-6). -/
theorem C4_amended :
    (∀ (lines : List Line) (line : Line) (vec : List Nat) (raw : Bool)
        (c : Char) (rest : List Char),
      line.chars = c :: rest → char_is_ascii c = false →
      handle_escaped_character_byte lines line vec raw =
        (lines, some {line with chars := rest},
         .error (.InvalidCharacter c))) ∧
    (∀ (lines : List Line) (line : Line) (vec : List Nat) (rest : List Char),
      line.chars = 'u' :: rest →
      handle_escaped_character_byte lines line vec Bool.false =
        (lines, some {line with chars := rest}, .ok (vec ++ [92, 117]))) ∧
    (∀ (lines : List Line) (line : Line) (vec : List Nat) (rest : List Char),
      line.chars = 'U' :: rest →
      handle_escaped_character_byte lines line vec Bool.false =
        (lines, some {line with chars := rest}, .ok (vec ++ [92, 85]))) ∧
    (∀ (lines : List Line) (line : Line) (vec : List Nat) (rest : List Char),
      line.chars = 'N' :: rest →
      handle_escaped_character_byte lines line vec Bool.false =
        (lines, some {line with chars := rest}, .ok (vec ++ [92, 78]))) ∧
    (∀ (lines : List Line) (line : Line) (vec : List Nat) (rest : List Char),
      line.chars = 'n' :: rest →
      handle_escaped_character_byte lines line vec Bool.false =
        (lines, some {line with chars := rest}, .ok (vec ++ [10]))) ∧
    (∀ (lines : List Line) (line : Line) (vec : List Nat) (h1 h2 : Char)
        (rest : List Char),
      line.chars = 'x' :: h1 :: h2 :: rest →
      char_is_digit h1 16 = true → char_is_digit h2 16 = true →
      handle_escaped_character_byte lines line vec Bool.false =
        (lines, some {line with chars := rest},
         .ok (vec ++ [from_str_radix (String.mk [h1, h2]) 16 % 256]))) := by
  refine ⟨?_, ?_, ?_, ?_, ?_, ?_⟩
  · intro lines line vec raw c rest hch hasc
    obtain ⟨num, ind, lsp, chars⟩ := line
    simp only at hch
    subst hch
    have hnat : ¬(c.toNat < 128) := by
      intro hlt
      simp [char_is_ascii, hlt] at hasc
    have hne : ∀ d : Char, d.toNat < 128 → ¬(c = d) := by
      intro d hd he
      subst he
      omega
    simp only [handle_escaped_character_byte]
    rw [if_neg (fun hc => hne '\\' (by decide) hc.1),
      if_neg (fun hc => hne '\'' (by decide) hc.1),
      if_neg (fun hc => hne '"' (by decide) hc.1),
      if_neg (fun hc => hne 'a' (by decide) hc.1),
      if_neg (fun hc => hne 'b' (by decide) hc.1),
      if_neg (fun hc => hne 'f' (by decide) hc.1),
      if_neg (fun hc => hne 'n' (by decide) hc.1),
      if_neg (fun hc => hne 'r' (by decide) hc.1),
      if_neg (fun hc => hne 't' (by decide) hc.1),
      if_neg (fun hc => hne 'v' (by decide) hc.1),
      if_neg (fun hc => hnat (char_is_digit_ascii c 8 hc.1)),
      if_neg (fun hc => hne 'x' (by decide) hc.1),
      if_neg (by simpa using hasc)]
  · intro lines line vec rest hch
    obtain ⟨num, ind, lsp, chars⟩ := line
    simp only at hch
    subst hch
    simp [handle_escaped_character_byte, char_as_u8,
      show char_is_digit 'u' 8 = false from rfl,
      show char_is_ascii 'u' = true from rfl]
  · intro lines line vec rest hch
    obtain ⟨num, ind, lsp, chars⟩ := line
    simp only at hch
    subst hch
    simp [handle_escaped_character_byte, char_as_u8,
      show char_is_digit 'U' 8 = false from rfl,
      show char_is_ascii 'U' = true from rfl]
  · intro lines line vec rest hch
    obtain ⟨num, ind, lsp, chars⟩ := line
    simp only at hch
    subst hch
    simp [handle_escaped_character_byte, char_as_u8,
      show char_is_digit 'N' 8 = false from rfl,
      show char_is_ascii 'N' = true from rfl]
  · intro lines line vec rest hch
    obtain ⟨num, ind, lsp, chars⟩ := line
    simp only at hch
    subst hch
    simp [handle_escaped_character_byte, char_as_u8]
  · intro lines line vec h1 h2 rest hch hd1 hd2
    obtain ⟨num, ind, lsp, chars⟩ := line
    simp only at hch
    subst hch
    simp only [handle_escaped_character_byte]
    rw [if_neg (by decide), if_neg (by decide), if_neg (by decide),
      if_neg (by decide), if_neg (by decide), if_neg (by decide),
      if_neg (by decide), if_neg (by decide), if_neg (by decide),
      if_neg (by decide), if_neg (by decide), if_pos (by decide)]
    simp [push_hex_character_byte, build_n_while, hd1, hd2]
    rfl

/-- Witness for C4 (amended): a non-ASCII escaped character raises
`InvalidCharacter`, while `\u` appends the two literal bytes. -/
theorem C4_amended_witness :
    handle_escaped_character_byte [] (mk_line 1 "é'") [] Bool.false =
      ([], some ⟨1, 0, "", ['\'']⟩, .error (.InvalidCharacter 'é')) ∧
    handle_escaped_character_byte [] (mk_line 1 "u0041'") [] Bool.false =
      ([], some ⟨1, 0, "", ['0', '0', '4', '1', '\'']⟩, .ok [92, 117]) := by
  constructor
  · simpa using C4_amended.1 [] (mk_line 1 "é'") [] Bool.false 'é' ['\''] rfl rfl
  · simpa using C4_amended.2.1 [] (mk_line 1 "u0041'") []
      ['0', '0', '4', '1', '\''] rfl



/-- Shape of `push_octal_character` results: the line is always kept and
the result is a decoded character. -/
theorem push_octal_character_shape (line : Line) (acc : Str) (c : Char)
    (r : Option Line × Except LexerError Str)
    (h : push_octal_character line acc c = some r) :
    (∃ l2, r.1 = some l2) ∧ ∃ s, r.2 = .ok s := by
  unfold push_octal_character at h
  split at h
  · cases h
    exact ⟨⟨_, rfl⟩, _, rfl⟩
  · cases h

/-- Shape of `push_hex_character` results: the line is always kept and an
error can only be `HexEscapeShort`. -/
theorem push_hex_character_shape (line : Line) (acc : Str)
    (r : Option Line × Except LexerError Str)
    (h : push_hex_character line acc = some r) :
    (∃ l2, r.1 = some l2) ∧
    (∀ e, r.2 = .error e → e = .HexEscapeShort) := by
  unfold push_hex_character at h
  split at h
  · split at h
    · cases h
      exact ⟨⟨_, rfl⟩, by intro e he; cases he⟩
    · cases h
  · cases h
    exact ⟨⟨_, rfl⟩, by intro e he; cases he; rfl⟩

/-- Shape of `push_unicode_character` results: the line is always kept
and an error can only be `MalformedUnicodeEscape`. -/
theorem push_unicode_character_shape (line : Line) (acc : Str) (nd : Nat)
    (r : Option Line × Except LexerError Str)
    (h : push_unicode_character line acc nd = some r) :
    (∃ l2, r.1 = some l2) ∧
    (∀ e, r.2 = .error e → e = .MalformedUnicodeEscape) := by
  unfold push_unicode_character at h
  split at h
  · split at h
    · cases h
      exact ⟨⟨_, rfl⟩, by intro e he; cases he⟩
    · cases h
  · cases h
    exact ⟨⟨_, rfl⟩, by intro e he; cases he; rfl⟩

/-- Shape of `push_named_character` results: the line is always kept and
errors are the named-escape kinds. -/
theorem push_named_character_shape (line : Line) (acc : Str) :
    (∃ l2, (push_named_character line acc).1 = some l2) ∧
    (∀ e, (push_named_character line acc).2 = .error e →
      e = .MalformedNamedUnicodeEscape ∨ ∃ s, e = .UnknownUnicodeName s) := by
  unfold push_named_character
  split
  · split
    · split
      · exact ⟨⟨_, rfl⟩, by intro e he; cases he⟩
      · exact ⟨⟨_, rfl⟩, by intro e he; cases he; right; exact ⟨_, rfl⟩⟩
    · exact ⟨⟨_, rfl⟩, by intro e he; cases he; left; rfl⟩
  · exact ⟨⟨_, rfl⟩, by intro e he; cases he; left; rfl⟩




/-- Shape of `handle_escaped_character` results: a dropped current line
means the input was exhausted during an end-of-line join (and the result
is still `Ok`), and no error it produces is an unterminated-literal
kind. -/
theorem handle_escaped_character_shape (lines : List Line) (line : Line)
    (acc : Str) (raw : Bool) (l1 : List Line) (cur1 : Option Line)
    (res : Except LexerError Str)
    (h : handle_escaped_character lines line acc raw = some (l1, cur1, res)) :
    (cur1 = none → l1 = [] ∧ ∃ s, res = .ok s) ∧
    (∀ e, res = .error e →
      e ≠ .UnterminatedTripleString ∧ e ≠ .UnterminatedString ∧
      ∃ l2, cur1 = some l2) := by
  unfold handle_escaped_character at h
  split at h
  · split at h
    all_goals split at h
    all_goals cases h
    all_goals simp
  · rename_i x c rest heq
    by_cases hc0 : (c = '\\' ∧ raw = Bool.false)
    · rw [if_pos hc0] at h
      cases h
      exact ⟨(by intro hk; cases hk), (by intro e he; cases he)⟩
    · rw [if_neg hc0] at h
      by_cases hc1 : (c = '\'' ∧ raw = Bool.false)
      · rw [if_pos hc1] at h
        cases h
        exact ⟨(by intro hk; cases hk), (by intro e he; cases he)⟩
      · rw [if_neg hc1] at h
        by_cases hc2 : (c = '"' ∧ raw = Bool.false)
        · rw [if_pos hc2] at h
          cases h
          exact ⟨(by intro hk; cases hk), (by intro e he; cases he)⟩
        · rw [if_neg hc2] at h
          by_cases hc3 : (c = 'a' ∧ raw = Bool.false)
          · rw [if_pos hc3] at h
            cases h
            exact ⟨(by intro hk; cases hk), (by intro e he; cases he)⟩
          · rw [if_neg hc3] at h
            by_cases hc4 : (c = 'b' ∧ raw = Bool.false)
            · rw [if_pos hc4] at h
              cases h
              exact ⟨(by intro hk; cases hk), (by intro e he; cases he)⟩
            · rw [if_neg hc4] at h
              by_cases hc5 : (c = 'f' ∧ raw = Bool.false)
              · rw [if_pos hc5] at h
                cases h
                exact ⟨(by intro hk; cases hk), (by intro e he; cases he)⟩
              · rw [if_neg hc5] at h
                by_cases hc6 : (c = 'n' ∧ raw = Bool.false)
                · rw [if_pos hc6] at h
                  cases h
                  exact ⟨(by intro hk; cases hk), (by intro e he; cases he)⟩
                · rw [if_neg hc6] at h
                  by_cases hc7 : (c = 'r' ∧ raw = Bool.false)
                  · rw [if_pos hc7] at h
                    cases h
                    exact ⟨(by intro hk; cases hk), (by intro e he; cases he)⟩
                  · rw [if_neg hc7] at h
                    by_cases hc8 : (c = 't' ∧ raw = Bool.false)
                    · rw [if_pos hc8] at h
                      cases h
                      exact ⟨(by intro hk; cases hk), (by intro e he; cases he)⟩
                    · rw [if_neg hc8] at h
                      by_cases hc9 : (c = 'v' ∧ raw = Bool.false)
                      · rw [if_pos hc9] at h
                        cases h
                        exact ⟨(by intro hk; cases hk), (by intro e he; cases he)⟩
                      · rw [if_neg hc9] at h
                        by_cases hc10 : (char_is_digit c 8 = true ∧ raw = Bool.false)
                        · -- octal
                          rw [if_pos hc10] at h
                          split at h
                          · next r hr =>
                              cases h
                              obtain ⟨⟨l2, hl2⟩, s, hs⟩ := push_octal_character_shape _ _ _ _ hr
                              refine ⟨(by intro hc; rw [hl2] at hc; cases hc), ?_⟩
                              intro e he
                              rw [hs] at he
                              cases he
                          · cases h
                        · rw [if_neg hc10] at h
                          by_cases hc11 : (c = 'x' ∧ raw = Bool.false)
                          · -- hex
                            rw [if_pos hc11] at h
                            split at h
                            · next r hr =>
                                cases h
                                obtain ⟨⟨l2, hl2⟩, herr⟩ := push_hex_character_shape _ _ _ hr
                                refine ⟨(by intro hc; rw [hl2] at hc; cases hc), ?_⟩
                                intro e he
                                have h0 := herr e he
                                subst h0
                                exact ⟨(by intro hc; cases hc), (by intro hc; cases hc), ⟨l2, hl2⟩⟩
                            · cases h
                          · rw [if_neg hc11] at h
                            by_cases hc12 : (c = 'N' ∧ raw = Bool.false)
                            · -- named
                              rw [if_pos hc12] at h
                              cases h
                              obtain ⟨⟨l2, hl2⟩, herr⟩ := push_named_character_shape _ acc
                              refine ⟨(by intro hc; rw [hl2] at hc; cases hc), ?_⟩
                              intro e he
                              rcases herr e he with hh | ⟨s, hh⟩ <;> subst hh <;>
                                exact ⟨(by intro hc; cases hc), (by intro hc; cases hc), ⟨l2, hl2⟩⟩
                            · rw [if_neg hc12] at h
                              by_cases hc13 : (c = 'u' ∧ raw = Bool.false)
                              · -- u4
                                rw [if_pos hc13] at h
                                split at h
                                · next r hr =>
                                    cases h
                                    obtain ⟨⟨l2, hl2⟩, herr⟩ := push_unicode_character_shape _ _ _ _ hr
                                    refine ⟨(by intro hc; rw [hl2] at hc; cases hc), ?_⟩
                                    intro e he
                                    have h0 := herr e he
                                    subst h0
                                    exact ⟨(by intro hc; cases hc), (by intro hc; cases hc), ⟨l2, hl2⟩⟩
                                · cases h
                              · rw [if_neg hc13] at h
                                by_cases hc14 : (c = 'U' ∧ raw = Bool.false)
                                · -- u8
                                  rw [if_pos hc14] at h
                                  split at h
                                  · next r hr =>
                                      cases h
                                      obtain ⟨⟨l2, hl2⟩, herr⟩ := push_unicode_character_shape _ _ _ _ hr
                                      refine ⟨(by intro hc; rw [hl2] at hc; cases hc), ?_⟩
                                      intro e he
                                      have h0 := herr e he
                                      subst h0
                                      exact ⟨(by intro hc; cases hc), (by intro hc; cases hc), ⟨l2, hl2⟩⟩
                                  · cases h
                                · rw [if_neg hc14] at h
                                  cases h
                                  exact ⟨(by intro hk; cases hk), (by intro e he; cases he)⟩


/-- Shape corollary for `process_escape_sequence`. -/
theorem process_escape_sequence_shape (lines : List Line) (cur : Line)
    (acc : Str) (raw : Bool) (num : Nat) (res : Except LexerError Str)
    (nl : Option Line) (l1 : List Line)
    (h : process_escape_sequence lines cur acc raw = some (num, res, nl, l1)) :
    (nl = none → l1 = [] ∧ ∃ s, res = .ok s) ∧
    (∀ e, res = .error e →
      e ≠ .UnterminatedTripleString ∧ e ≠ .UnterminatedString ∧
      ∃ l2, nl = some l2) := by
  unfold process_escape_sequence at h
  split at h
  · next l1h nlh resh hh =>
    cases h
    exact handle_escaped_character_shape _ _ _ _ _ _ _ hh
  · cases h

/-- Unterminated-literal errors of the string scanning loop:
`UnterminatedTripleString` leaves no line and no input;
`UnterminatedString` either does the same (end-of-input escape path) or
keeps the current, fully consumed line. -/
theorem build_string_loop_unterminated (fuel : Nat) :
    ∀ (lines : List Line) (cur : Line) (quote : Char) (raw long : Bool)
      (first : Nat) (acc : Str) (n : Nat) (e : LexerError)
      (cur2 : Option Line) (lines2 : List Line),
    build_string_loop fuel lines cur quote raw long first acc =
      some ((n, .error e), cur2, lines2) →
    (e = .UnterminatedTripleString → cur2 = none ∧ lines2 = []) ∧
    (e = .UnterminatedString →
      (cur2 = none ∧ lines2 = []) ∨
      ∃ l2, cur2 = some l2 ∧ l2.chars = []) := by
  induction fuel with
  | zero =>
    intro lines cur quote raw long first acc n e cur2 lines2 h
    simp [build_string_loop] at h
  | succ fuel ih =>
    intro lines cur quote raw long first acc n e cur2 lines2 h
    simp only [build_string_loop] at h
    split at h
    · -- cons case
      rename_i x c rest heq
      by_cases hbs : c = '\\'
      · rw [if_pos hbs] at h
        split at h
        · cases h
        · -- some escape result
          rename_i num resx nlx l1x hps
          split at h
          · -- ok, some: recursion
            exact ih _ _ _ _ _ _ _ _ _ _ _ h
          · -- error branch
            rename_i msg nl2
            cases h
            have hsh := (process_escape_sequence_shape _ _ _ _ _ _ _ _ hps).2
              _ rfl
            exact ⟨(fun he => absurd he hsh.1), (fun he => absurd he hsh.2.1)⟩
          · -- ok, none: unterminated
            rename_i sres
            have hsh := (process_escape_sequence_shape _ _ _ _ _ _ _ _ hps).1
              rfl
            split at h
            · cases h
              exact ⟨(fun _ => ⟨rfl, hsh.1⟩), (by intro he; cases he)⟩
            · cases h
              exact ⟨(by intro he; cases he), (fun _ => Or.inl ⟨rfl, hsh.1⟩)⟩
      · rw [if_neg hbs] at h
        by_cases hq : c = quote
        · rw [if_pos hq] at h
          by_cases hlf : long = Bool.false
          · rw [if_pos hlf] at h
            cases h
          · rw [if_neg hlf] at h
            split at h
            · cases h
            · exact ih _ _ _ _ _ _ _ _ _ _ _ h
        · rw [if_neg hq] at h
          exact ih _ _ _ _ _ _ _ _ _ _ _ h
    · -- end of line
      rename_i x heq
      split at h
      · -- long string: continue or end of input
        split at h
        · exact ih _ _ _ _ _ _ _ _ _ _ _ h
        · cases h
          exact ⟨(fun _ => ⟨rfl, rfl⟩), (by intro he; cases he)⟩
      · -- short string: UnterminatedString keeping the line
        cases h
        exact ⟨(by intro he; cases he),
          (fun _ => Or.inr ⟨cur, rfl, heq⟩)⟩


/-- Shape of `push_hex_character_byte` results. -/
theorem push_hex_character_byte_shape (line : Line) (vec : List Nat) :
    (∃ l2, (push_hex_character_byte line vec).1 = some l2) ∧
    (∀ e, (push_hex_character_byte line vec).2 = .error e →
      e = .HexEscapeShort) := by
  unfold push_hex_character_byte
  split
  · exact ⟨⟨_, rfl⟩, (by intro e he; cases he)⟩
  · exact ⟨⟨_, rfl⟩, (by intro e he; cases he; rfl)⟩

/-- Shape of `handle_escaped_character_byte` results, as for the text
variant. -/
theorem handle_escaped_character_byte_shape (lines : List Line)
    (line : Line) (vec : List Nat) (raw : Bool) (l1 : List Line)
    (cur1 : Option Line) (res : Except LexerError (List Nat))
    (h : handle_escaped_character_byte lines line vec raw = (l1, cur1, res)) :
    (cur1 = none → l1 = [] ∧ ∃ bs, res = .ok bs) ∧
    (∀ e, res = .error e →
      e ≠ .UnterminatedTripleString ∧ e ≠ .UnterminatedString ∧
      ∃ l2, cur1 = some l2) := by
  unfold handle_escaped_character_byte at h
  split at h
  · split at h
    all_goals split at h
    all_goals cases h
    all_goals simp
  · rename_i x c rest heq
    by_cases hc0 : (c = '\\' ∧ raw = Bool.false)
    · rw [if_pos hc0] at h
      cases h
      exact ⟨(by intro hk; cases hk), (by intro e he; cases he)⟩
    · rw [if_neg hc0] at h
      by_cases hc1 : (c = '\'' ∧ raw = Bool.false)
      · rw [if_pos hc1] at h
        cases h
        exact ⟨(by intro hk; cases hk), (by intro e he; cases he)⟩
      · rw [if_neg hc1] at h
        by_cases hc2 : (c = '"' ∧ raw = Bool.false)
        · rw [if_pos hc2] at h
          cases h
          exact ⟨(by intro hk; cases hk), (by intro e he; cases he)⟩
        · rw [if_neg hc2] at h
          by_cases hc3 : (c = 'a' ∧ raw = Bool.false)
          · rw [if_pos hc3] at h
            cases h
            exact ⟨(by intro hk; cases hk), (by intro e he; cases he)⟩
          · rw [if_neg hc3] at h
            by_cases hc4 : (c = 'b' ∧ raw = Bool.false)
            · rw [if_pos hc4] at h
              cases h
              exact ⟨(by intro hk; cases hk), (by intro e he; cases he)⟩
            · rw [if_neg hc4] at h
              by_cases hc5 : (c = 'f' ∧ raw = Bool.false)
              · rw [if_pos hc5] at h
                cases h
                exact ⟨(by intro hk; cases hk), (by intro e he; cases he)⟩
              · rw [if_neg hc5] at h
                by_cases hc6 : (c = 'n' ∧ raw = Bool.false)
                · rw [if_pos hc6] at h
                  cases h
                  exact ⟨(by intro hk; cases hk), (by intro e he; cases he)⟩
                · rw [if_neg hc6] at h
                  by_cases hc7 : (c = 'r' ∧ raw = Bool.false)
                  · rw [if_pos hc7] at h
                    cases h
                    exact ⟨(by intro hk; cases hk), (by intro e he; cases he)⟩
                  · rw [if_neg hc7] at h
                    by_cases hc8 : (c = 't' ∧ raw = Bool.false)
                    · rw [if_pos hc8] at h
                      cases h
                      exact ⟨(by intro hk; cases hk), (by intro e he; cases he)⟩
                    · rw [if_neg hc8] at h
                      by_cases hc9 : (c = 'v' ∧ raw = Bool.false)
                      · rw [if_pos hc9] at h
                        cases h
                        exact ⟨(by intro hk; cases hk), (by intro e he; cases he)⟩
                      · rw [if_neg hc9] at h
                        by_cases hc10 : (char_is_digit c 8 = true ∧ raw = Bool.false)
                        · rw [if_pos hc10] at h
                          cases h
                          exact ⟨(by intro hk; cases hk), (by intro e he; cases he)⟩
                        · rw [if_neg hc10] at h
                          by_cases hc11 : (c = 'x' ∧ raw = Bool.false)
                          · rw [if_pos hc11] at h
                            cases h
                            obtain ⟨⟨l2, hl2⟩, herr⟩ := push_hex_character_byte_shape {line with chars := rest} vec
                            refine ⟨(by intro hk; rw [hl2] at hk; cases hk), ?_⟩
                            intro e he
                            have h0 := herr e he
                            subst h0
                            exact ⟨(by intro hk; cases hk), (by intro hk; cases hk), ⟨l2, hl2⟩⟩
                          · rw [if_neg hc11] at h
                            by_cases hc12 : (char_is_ascii c = true)
                            · rw [if_pos hc12] at h
                              cases h
                              exact ⟨(by intro hk; cases hk), (by intro e he; cases he)⟩
                            · rw [if_neg hc12] at h
                              cases h
                              exact ⟨(by intro hk; cases hk), (by intro e he; cases he; exact ⟨(by intro hk; cases hk), (by intro hk; cases hk), ⟨_, rfl⟩⟩)⟩


/-- Shape corollary for `process_escape_sequence_byte`. -/
theorem process_escape_sequence_byte_shape (lines : List Line) (cur : Line)
    (vec : List Nat) (raw : Bool) (num : Nat)
    (res : Except LexerError (List Nat)) (nl : Option Line)
    (l1 : List Line)
    (h : process_escape_sequence_byte lines cur vec raw = (num, res, nl, l1)) :
    (nl = none → l1 = [] ∧ ∃ bs, res = .ok bs) ∧
    (∀ e, res = .error e →
      e ≠ .UnterminatedTripleString ∧ e ≠ .UnterminatedString ∧
      ∃ l2, nl = some l2) := by
  unfold process_escape_sequence_byte at h
  cases h
  exact handle_escaped_character_byte_shape _ _ _ _ _ _ _ rfl

/-- Unterminated-literal errors of the byte scanning loop, as for the
text variant. -/
theorem build_string_byte_loop_unterminated (fuel : Nat) :
    ∀ (lines : List Line) (cur : Line) (quote : Char) (raw long : Bool)
      (first : Nat) (vec : List Nat) (n : Nat) (e : LexerError)
      (cur2 : Option Line) (lines2 : List Line),
    build_string_byte_loop fuel lines cur quote raw long first vec =
      some ((n, .error e), cur2, lines2) →
    (e = .UnterminatedTripleString → cur2 = none ∧ lines2 = []) ∧
    (e = .UnterminatedString →
      (cur2 = none ∧ lines2 = []) ∨
      ∃ l2, cur2 = some l2 ∧ l2.chars = []) := by
  induction fuel with
  | zero =>
    intro lines cur quote raw long first vec n e cur2 lines2 h
    simp [build_string_byte_loop] at h
  | succ fuel ih =>
    intro lines cur quote raw long first vec n e cur2 lines2 h
    simp only [build_string_byte_loop] at h
    split at h
    · rename_i x c rest heq
      by_cases hbs : c = '\\'
      · rw [if_pos hbs] at h
        have hsh := process_escape_sequence_byte_shape lines
          {cur with chars := rest} vec raw _ _ _ _ rfl
        split at h
        · exact ih _ _ _ _ _ _ _ _ _ _ _ h
        · rename_i msg nl2 hres
          cases h
          have h2 := hsh.2 _ hres
          exact ⟨(fun he => absurd he h2.1), (fun he => absurd he h2.2.1)⟩
        · rename_i sres hres hnl
          have h1 := hsh.1 hnl
          split at h
          · cases h
            exact ⟨(fun _ => ⟨rfl, h1.1⟩), (by intro he; cases he)⟩
          · cases h
            exact ⟨(by intro he; cases he), (fun _ => Or.inl ⟨rfl, h1.1⟩)⟩
      · rw [if_neg hbs] at h
        by_cases hq : c = quote
        · rw [if_pos hq] at h
          by_cases hlf : long = Bool.false
          · rw [if_pos hlf] at h
            cases h
          · rw [if_neg hlf] at h
            split at h
            · cases h
            · exact ih _ _ _ _ _ _ _ _ _ _ _ h
        · rw [if_neg hq] at h
          exact ih _ _ _ _ _ _ _ _ _ _ _ h
    · rename_i x heq
      split at h
      · split at h
        · exact ih _ _ _ _ _ _ _ _ _ _ _ h
        · cases h
          exact ⟨(fun _ => ⟨rfl, rfl⟩), (by intro he; cases he)⟩
      · cases h
        exact ⟨(by intro he; cases he),
          (fun _ => Or.inr ⟨cur, rfl, heq⟩)⟩

/-- C5 (amended): after Error(UnterminatedTripleString) the string-scanning
loop consumes the remainder of the input (no current line is returned and the
stored line list is empty), for text and byte literals alike; after
Error(UnterminatedString) either the remainder is likewise consumed (the
end-of-input escape path) or the exhausted current line is retained so that
scanning resumes on the next pull.  Concretely, the input lines "'pq" and "y"
yield the error followed by Newline, Identifier "y", Newline. -/
theorem C5_amended :
    (∀ (fuel : Nat) (lines : List Line) (cur : Line) (quote : Char)
       (raw long : Bool) (first : Nat) (acc : Str) (n : Nat)
       (e : LexerError) (cur2 : Option Line) (lines2 : List Line),
      build_string_loop fuel lines cur quote raw long first acc =
        some ((n, .error e), cur2, lines2) →
      (e = .UnterminatedTripleString → cur2 = none ∧ lines2 = []) ∧
      (e = .UnterminatedString →
        (cur2 = none ∧ lines2 = []) ∨
        ∃ l2, cur2 = some l2 ∧ l2.chars = [])) ∧
    (∀ (fuel : Nat) (lines : List Line) (cur : Line) (quote : Char)
       (raw long : Bool) (first : Nat) (vec : List Nat) (n : Nat)
       (e : LexerError) (cur2 : Option Line) (lines2 : List Line),
      build_string_byte_loop fuel lines cur quote raw long first vec =
        some ((n, .error e), cur2, lines2) →
      (e = .UnterminatedTripleString → cur2 = none ∧ lines2 = []) ∧
      (e = .UnterminatedString →
        (cur2 = none ∧ lines2 = []) ∨
        ∃ l2, cur2 = some l2 ∧ l2.chars = [])) ∧
    pull_items 100 4 (init_state ["'pq", "y"]) none =
      some ([(1, .error .UnterminatedString), (1, .ok .Newline),
             (2, .ok (.Identifier "y")), (2, .ok .Newline)],
            ⟨[0], 0, 0, []⟩, none) :=
  ⟨build_string_loop_unterminated, build_string_byte_loop_unterminated, rfl⟩

/-- Witness for C5_amended: the unterminated triple-quoted literal on the
line "abc" with no further lines returns the error with no retained line. -/
theorem C5_amended_witness :
    (none : Option Line) = none ∧ ([] : List Line) = [] :=
  (C5_amended.1 10 [] (mk_line 1 "abc") (Char.ofNat 39) Bool.false Bool.true 1
      "" 2 .UnterminatedTripleString none [] rfl).1 rfl

/-- An `ok` of a non-layout token is layout-free. -/
theorem ok_layout_free_of (tk : Token) (h : tk.is_layout = false) :
    ok_layout_free (.ok tk) := by
  intro t ht
  rw [← Except.ok.inj ht]
  exact h

/-- Errors are layout-free. -/
theorem error_layout_free (e : LexerError) : ok_layout_free (.error e) :=
  fun _ ht => Except.noConfusion ht

/-- A layout-free result is none of the three layout tokens. -/
theorem ok_layout_free_spec (r : ResultToken) (h : ok_layout_free r) :
    r ≠ .ok .Newline ∧ r ≠ .ok .Indent ∧ r ≠ .ok .Dedent :=
  ⟨fun he => absurd (h _ he) (by decide),
   fun he => absurd (h _ he) (by decide),
   fun he => absurd (h _ he) (by decide)⟩

/-- The keyword table holds no layout token. -/
theorem keyword_lookup_free (s : Str) : (keyword_lookup s).is_layout = false := by
  unfold keyword_lookup
  split
  · rename_i p heq
    have hm := List.mem_of_find?_eq_some heq
    have hall : ∀ q ∈ KEYWORDS, (Prod.snd q).is_layout = false := by decide
    exact hall _ hm
  · rfl

/-- `build_identifier` yields a keyword or an identifier, never a layout
token. -/
theorem build_identifier_free (line : Line) :
    ok_layout_free (build_identifier line).1.2 :=
  ok_layout_free_of _ (keyword_lookup_free _)

/-- `require_radix_digits` yields the given numeric constructor or an
error. -/
theorem require_radix_digits_free (s : Str) (line : Line) (radix : Nat)
    (tt : Str → Token) (htt : ∀ x, (tt x).is_layout = false) :
    ok_layout_free (require_radix_digits s line radix tt).1 := by
  unfold require_radix_digits
  split
  · split
    · exact ok_layout_free_of _ (htt _)
    · exact error_layout_free _
  · exact error_layout_free _

/-- `build_point_float` preserves layout-freeness. -/
theorem build_point_float_free (token : ResultToken) (line : Line)
    (h : ok_layout_free token) :
    ok_layout_free (build_point_float token line).1 := by
  unfold build_point_float
  dsimp only
  split
  · exact error_layout_free _
  · rename_i t
    split
    · split
      · split
        · split
          · exact require_radix_digits_free _ _ _ _ (fun _ => rfl)
          · exact ok_layout_free_of _ rfl
        · exact ok_layout_free_of _ rfl
      · exact error_layout_free _
    · exact ok_layout_free_of _ (h t rfl)

/-- `build_exp_float` preserves layout-freeness. -/
theorem build_exp_float_free (token : ResultToken) (line : Line)
    (h : ok_layout_free token) :
    ok_layout_free (build_exp_float token line).1 := by
  unfold build_exp_float
  dsimp only
  split
  · exact error_layout_free _
  · rename_i t
    split
    · split
      · split
        · split
          · split
            · exact require_radix_digits_free _ _ _ _ (fun _ => rfl)
            · exact require_radix_digits_free _ _ _ _ (fun _ => rfl)
          · exact require_radix_digits_free _ _ _ _ (fun _ => rfl)
        · exact error_layout_free _
      · exact ok_layout_free_of _ (h t rfl)
    · exact ok_layout_free_of _ (h t rfl)

/-- `build_img_float` preserves layout-freeness. -/
theorem build_img_float_free (token : ResultToken) (line : Line)
    (h : ok_layout_free token) :
    ok_layout_free (build_img_float token line).1 := by
  unfold build_img_float
  split
  · exact error_layout_free _
  · rename_i t
    split
    · split
      · split
        · exact ok_layout_free_of _ rfl
        · exact error_layout_free _
      · exact ok_layout_free_of _ (h t rfl)
    · exact ok_layout_free_of _ (h t rfl)

/-- `build_float_part` preserves layout-freeness. -/
theorem build_float_part_free (token : ResultToken) (line : Line)
    (h : ok_layout_free token) :
    ok_layout_free (build_float_part token line).1 := by
  unfold build_float_part
  exact build_img_float_free _ _ (build_exp_float_free _ _
    (build_point_float_free _ _ h))

/-- `require_float_part` preserves layout-freeness. -/
theorem require_float_part_free (token : ResultToken) (line : Line)
    (h : ok_layout_free token) :
    ok_layout_free (require_float_part token line).1 := by
  simp only [require_float_part]
  split
  · exact error_layout_free _
  · exact build_float_part_free _ _ h

/-- `build_decimal_number` yields a decimal integer or an error. -/
theorem build_decimal_number_free (line : Line) :
    ok_layout_free (build_decimal_number line).1 := by
  unfold build_decimal_number
  exact require_radix_digits_free _ _ _ _ (fun _ => rfl)

/-- `build_zero_prefixed_number` never yields a layout token. -/
theorem build_zero_prefixed_number_free (line : Line) :
    ok_layout_free (build_zero_prefixed_number line).1 := by
  simp only [build_zero_prefixed_number]
  split
  · exact error_layout_free _
  · split
    · split
      · exact require_radix_digits_free _ _ _ _ (fun _ => rfl)
      · split
        · exact require_radix_digits_free _ _ _ _ (fun _ => rfl)
        · split
          · exact require_radix_digits_free _ _ _ _ (fun _ => rfl)
          · split
            · split
              · split
                · exact require_float_part_free _ _
                    (require_radix_digits_free _ _ _ _ (fun _ => rfl))
                · exact build_float_part_free _ _ (ok_layout_free_of _ rfl)
              · exact build_float_part_free _ _ (ok_layout_free_of _ rfl)
            · split
              · exact require_float_part_free _ _
                  (require_radix_digits_free _ _ _ _ (fun _ => rfl))
              · exact build_float_part_free _ _ (ok_layout_free_of _ rfl)
    · exact build_float_part_free _ _ (ok_layout_free_of _ rfl)

/-- `build_dot_prefixed` never yields a layout token. -/
theorem build_dot_prefixed_free (line : Line) :
    ok_layout_free (build_dot_prefixed line).1 := by
  simp only [build_dot_prefixed]
  split
  · exact error_layout_free _
  · split
    · split
      · exact build_img_float_free _ _ (build_exp_float_free _ _
          (require_radix_digits_free _ _ _ _ (fun _ => rfl)))
      · exact error_layout_free _
    · exact error_layout_free _

/-- `build_number` never yields a layout token. -/
theorem build_number_free (line : Line) :
    ok_layout_free (build_number line).1.2 := by
  simp only [build_number]
  split
  · exact build_zero_prefixed_number_free _
  · exact build_dot_prefixed_free _
  · exact build_float_part_free _ _ (build_decimal_number_free _)

/-- The first component of `match_pair_opt` is one of its two candidate
tokens. -/
theorem match_pair_opt_fst (a : Token) (l : Line) (c : Char) (b : Token) :
    (match_pair_opt a l c b).1 = a ∨ (match_pair_opt a l c b).1 = b := by
  unfold match_pair_opt
  split
  · split
    · exact Or.inr rfl
    · exact Or.inl rfl
  · exact Or.inl rfl

/-- `match_pair_opt` of two non-layout candidates is layout-free. -/
theorem ok_pair_free (a : Token) (l : Line) (c : Char) (b : Token)
    (ha : a.is_layout = false) (hb : b.is_layout = false) :
    ok_layout_free (.ok (match_pair_opt a l c b).1) := by
  intro t ht
  rw [← Except.ok.inj ht]
  rcases match_pair_opt_fst a l c b with h | h <;> rw [h] <;> assumption

/-- `match_pair_eq_opt` of non-layout candidates (also after `=`
upgrading) is layout-free. -/
theorem ok_pair_eq_free (l : Line) (a : Token) (c : Char) (b : Token)
    (ha : a.is_layout = false) (hb : b.is_layout = false)
    (hae : a.with_equal.is_layout = false)
    (hbe : b.with_equal.is_layout = false) :
    ok_layout_free (.ok (match_pair_eq_opt l a c b).1) := by
  intro t ht
  rw [← Except.ok.inj ht]
  simp only [match_pair_eq_opt]
  rcases match_pair_opt_fst (match_pair_opt a l c b).1
      (match_pair_opt a l c b).2 '=' (match_pair_opt a l c b).1.with_equal
    with h2 | h2 <;>
    rcases match_pair_opt_fst a l c b with h | h <;>
    rw [h2, h] <;> assumption

/-- `build_symbol` never yields a layout token. -/
theorem build_symbol_free (braces : Nat) (line : Line) :
    ok_layout_free (build_symbol braces line).2.1.2 := by
  simp only [build_symbol]
  repeat' split
  all_goals first
    | exact ok_layout_free_of _ rfl
    | exact error_layout_free _
    | exact ok_pair_free _ _ _ _ rfl rfl
    | exact ok_pair_eq_free _ _ _ _ rfl rfl rfl rfl
    | (rename_i hm; exact ok_pair_free _ _ _ _ (by rw [hm]; rfl) rfl)

/-- The string loop yields a `String` token or an error, and drops the
current line only with the line iterator exhausted. -/
theorem build_string_loop_shape (fuel : Nat) :
    ∀ (lines : List Line) (cur : Line) (quote : Char) (raw long : Bool)
      (first : Nat) (acc : Str) (n : Nat) (res : ResultToken)
      (cur2 : Option Line) (lines2 : List Line),
    build_string_loop fuel lines cur quote raw long first acc =
      some ((n, res), cur2, lines2) →
    (∀ t, res = .ok t → t.is_layout = false) ∧ (cur2 = none → lines2 = []) := by
  induction fuel with
  | zero =>
    intro lines cur quote raw long first acc n res cur2 lines2 h
    simp [build_string_loop] at h
  | succ fuel ih =>
    intro lines cur quote raw long first acc n res cur2 lines2 h
    simp only [build_string_loop] at h
    split at h
    · rename_i x c rest heq
      by_cases hbs : c = '\\'
      · rw [if_pos hbs] at h
        split at h
        · cases h
        · rename_i num resx nlx l1x hps
          split at h
          · exact ih _ _ _ _ _ _ _ _ _ _ _ h
          · rename_i msg nl2
            cases h
            have hsh := (process_escape_sequence_shape _ _ _ _ _ _ _ _ hps).2
              _ rfl
            refine ⟨fun t ht => Except.noConfusion ht, fun hc => ?_⟩
            obtain ⟨l2, hl2⟩ := hsh.2.2
            rw [hl2] at hc
            exact Option.noConfusion hc
          · rename_i sres
            have hsh := (process_escape_sequence_shape _ _ _ _ _ _ _ _ hps).1
              rfl
            split at h
            · cases h
              exact ⟨fun t ht => Except.noConfusion ht, fun _ => hsh.1⟩
            · cases h
              exact ⟨fun t ht => Except.noConfusion ht, fun _ => hsh.1⟩
      · rw [if_neg hbs] at h
        by_cases hq : c = quote
        · rw [if_pos hq] at h
          by_cases hlf : long = Bool.false
          · rw [if_pos hlf] at h
            cases h
            exact ⟨fun t ht => by rw [← Except.ok.inj ht]; rfl,
              fun hc => Option.noConfusion hc⟩
          · rw [if_neg hlf] at h
            split at h
            · cases h
              exact ⟨fun t ht => by rw [← Except.ok.inj ht]; rfl,
                fun hc => Option.noConfusion hc⟩
            · exact ih _ _ _ _ _ _ _ _ _ _ _ h
        · rw [if_neg hq] at h
          exact ih _ _ _ _ _ _ _ _ _ _ _ h
    · rename_i x heq
      split at h
      · split at h
        · exact ih _ _ _ _ _ _ _ _ _ _ _ h
        · cases h
          exact ⟨fun t ht => Except.noConfusion ht, fun _ => rfl⟩
      · cases h
        exact ⟨fun t ht => Except.noConfusion ht,
          fun hc => Option.noConfusion hc⟩

/-- As `build_string_loop_shape`, for the byte loop and `Bytes`. -/
theorem build_string_byte_loop_shape (fuel : Nat) :
    ∀ (lines : List Line) (cur : Line) (quote : Char) (raw long : Bool)
      (first : Nat) (vec : List Nat) (n : Nat) (res : ResultToken)
      (cur2 : Option Line) (lines2 : List Line),
    build_string_byte_loop fuel lines cur quote raw long first vec =
      some ((n, res), cur2, lines2) →
    (∀ t, res = .ok t → t.is_layout = false) ∧ (cur2 = none → lines2 = []) := by
  induction fuel with
  | zero =>
    intro lines cur quote raw long first vec n res cur2 lines2 h
    simp [build_string_byte_loop] at h
  | succ fuel ih =>
    intro lines cur quote raw long first vec n res cur2 lines2 h
    simp only [build_string_byte_loop] at h
    split at h
    · rename_i x c rest heq
      by_cases hbs : c = '\\'
      · rw [if_pos hbs] at h
        have hsh := process_escape_sequence_byte_shape lines
          {cur with chars := rest} vec raw _ _ _ _ rfl
        split at h
        · exact ih _ _ _ _ _ _ _ _ _ _ _ h
        · rename_i msg nl2 hres
          cases h
          have h2 := hsh.2 _ hres
          refine ⟨fun t ht => Except.noConfusion ht, fun hc => ?_⟩
          obtain ⟨l2, hl2⟩ := h2.2.2
          have hc2 : (handle_escaped_character_byte lines
              {cur with chars := rest} vec raw).2.1 = none := hc
          rw [hl2] at hc2
          exact Option.noConfusion hc2
        · rename_i sres hres hnl
          have h1 := hsh.1 hnl
          split at h
          · cases h
            exact ⟨fun t ht => Except.noConfusion ht, fun _ => h1.1⟩
          · cases h
            exact ⟨fun t ht => Except.noConfusion ht, fun _ => h1.1⟩
      · rw [if_neg hbs] at h
        by_cases hq : c = quote
        · rw [if_pos hq] at h
          by_cases hlf : long = Bool.false
          · rw [if_pos hlf] at h
            cases h
            exact ⟨fun t ht => by rw [← Except.ok.inj ht]; rfl,
              fun hc => Option.noConfusion hc⟩
          · rw [if_neg hlf] at h
            split at h
            · cases h
              exact ⟨fun t ht => by rw [← Except.ok.inj ht]; rfl,
                fun hc => Option.noConfusion hc⟩
            · exact ih _ _ _ _ _ _ _ _ _ _ _ h
        · rw [if_neg hq] at h
          exact ih _ _ _ _ _ _ _ _ _ _ _ h
    · rename_i x heq
      split at h
      · split at h
        · exact ih _ _ _ _ _ _ _ _ _ _ _ h
        · cases h
          exact ⟨fun t ht => Except.noConfusion ht, fun _ => rfl⟩
      · cases h
        exact ⟨fun t ht => Except.noConfusion ht,
          fun hc => Option.noConfusion hc⟩

/-- `process_string` results: layout-free item, and the current line is
dropped only with the line iterator exhausted. -/
theorem process_string_shape (fuel : Nat) (lines : List Line) (line : Line)
    (item : Item) (cur2 : Option Line) (lines2 : List Line)
    (h : process_string fuel lines line = some (item, cur2, lines2)) :
    ok_layout_free item.2 ∧ (cur2 = none → lines2 = []) := by
  simp only [process_string, build_string] at h
  split at h
  · cases h
  · exact build_string_loop_shape fuel _ _ _ _ _ _ _ item.1 item.2 cur2
      lines2 h

/-- As `process_string_shape`, for byte literals. -/
theorem process_byte_string_shape (fuel : Nat) (lines : List Line)
    (line : Line) (item : Item) (cur2 : Option Line) (lines2 : List Line)
    (h : process_byte_string fuel lines line = some (item, cur2, lines2)) :
    ok_layout_free item.2 ∧ (cur2 = none → lines2 = []) := by
  simp only [process_byte_string, build_string_byte] at h
  split at h
  · cases h
  · exact build_string_byte_loop_shape fuel _ _ _ _ _ _ _ item.1 item.2 cur2
      lines2 h

/-- A pull that emits a layout-free item, keeps the dedent counter at
zero and the indent stack unchanged, satisfies the C9 invariant. -/
theorem StepInv_of_item (st : LexState) (item : Item) (cur2 : Option Line)
    (st2 : LexState) (hfree : ok_layout_free item.2)
    (hdc2 : st2.dedent_count = 0) (hstk : st2.indent_stack = st.indent_stack)
    (hcl : cur2 = none → st2.lines = []) :
    StepInv st (some item) cur2 st2 := by
  refine ⟨hdc2, ?_, ?_, fun _ => hstk, hcl⟩
  · intro n tok htok
    have h2 := congrArg Prod.snd (Option.some.inj htok)
    constructor
    · intro he; rw [he] at h2; exact absurd (hfree _ h2) (by decide)
    · intro he; rw [he] at h2; exact absurd (hfree _ h2) (by decide)
  · intro n hC
    have h2 := congrArg Prod.snd (Option.some.inj hC)
    exact absurd (hfree _ h2) (by decide)

/-- `process_end_of_line` at positive depth only feeds the next physical
line (or end of input) back to the scanner. -/
theorem process_end_of_line_inv
    (rec : LexState → Option Line → Option StepResult)
    (hrec : ∀ st cur it cur2 st2, st.open_braces ≠ 0 → st.dedent_count = 0 →
      (cur = none → st.lines = []) → rec st cur = some (it, cur2, st2) →
      StepInv st it cur2 st2)
    (st : LexState) (line : Line) (it : Option Item) (cur2 : Option Line)
    (st2 : LexState) (hbr : st.open_braces ≠ 0) (hdc : st.dedent_count = 0)
    (h : process_end_of_line rec st line = some (it, cur2, st2)) :
    StepInv st it cur2 st2 := by
  unfold process_end_of_line at h
  rw [if_neg hbr] at h
  split at h
  · rename_i heq
    exact hrec st none it cur2 st2 hbr hdc (fun _ => heq) h
  · rename_i l ls heq
    exact hrec {st with lines := ls} (some l) it cur2 st2 hbr hdc
      (fun hx => Option.noConfusion hx) h

/-- `process_line_join` joins to the next line or raises
`BadLineContinuation`; it never touches the indentation machinery. -/
theorem process_line_join_inv
    (rec : LexState → Option Line → Option StepResult)
    (hrec : ∀ st cur it cur2 st2, st.open_braces ≠ 0 → st.dedent_count = 0 →
      (cur = none → st.lines = []) → rec st cur = some (it, cur2, st2) →
      StepInv st it cur2 st2)
    (st : LexState) (line : Line) (it : Option Item) (cur2 : Option Line)
    (st2 : LexState) (hbr : st.open_braces ≠ 0) (hdc : st.dedent_count = 0)
    (h : process_line_join rec st line = some (it, cur2, st2)) :
    StepInv st it cur2 st2 := by
  simp only [process_line_join] at h
  split at h
  · split at h
    · rename_i heq
      exact hrec st none it cur2 st2 hbr hdc (fun _ => heq) h
    · rename_i l ls heq
      exact hrec {st with lines := ls} (some l) it cur2 st2 hbr hdc
        (fun hx => Option.noConfusion hx) h
  · cases h
    exact StepInv_of_item st _ _ st (error_layout_free _) hdc rfl
      (fun hx => Option.noConfusion hx)

/-- Single-pull C9 invariant of the internal scanner: with positive
bracket depth, a zero dedent counter and a line iterator exhausted
whenever no current line is stored, a pull keeps the dedent counter at
zero, never emits `Newline` or `Indent`, emits `Dedent` only as the
synthetic end-of-input drain (line number 0, one level popped), otherwise
leaves the indent stack unchanged, and drops the current line only with
the line iterator exhausted. -/
theorem next_token_line_inv (fuel : Nat) :
    ∀ (st : LexState) (cur : Option Line) (it : Option Item)
      (cur2 : Option Line) (st2 : LexState),
    st.open_braces ≠ 0 → st.dedent_count = 0 → (cur = none → st.lines = []) →
    next_token_line fuel st cur = some (it, cur2, st2) →
    StepInv st it cur2 st2 := by
  induction fuel with
  | zero =>
    intro st cur it cur2 st2 hbr hdc hln h
    cases h
  | succ fuel ih =>
    intro st cur it cur2 st2 hbr hdc hln h
    simp only [next_token_line] at h
    split at h
    · -- a current line is stored
      rename_i current_line
      rw [if_neg (by simp [hdc])] at h
      split at h
      · -- end of line
        exact process_end_of_line_inv _ ih _ _ _ _ _ hbr hdc h
      · rename_i x c heq
        by_cases h1 : c = '#'
        · rw [if_pos h1] at h
          exact process_end_of_line_inv _ ih _ _ _ _ _ hbr hdc h
        · rw [if_neg h1] at h
          by_cases h2 : c = 'u' ∨ c = 'U'
          · rw [if_pos h2] at h
            split at h
            · -- string literal
              simp only [lift_string] at h
              split at h
              · cases h
              · rename_i item curx linesx heqs
                cases h
                have hs := process_string_shape fuel _ _ _ _ _ heqs
                exact StepInv_of_item st _ _ _ hs.1 hdc rfl hs.2
            · -- identifier
              simp only [lift_plain] at h
              cases h
              exact StepInv_of_item st _ _ st (build_identifier_free _) hdc
                rfl (fun hx => Option.noConfusion hx)
          · rw [if_neg h2] at h
            by_cases h3 : c = 'r' ∨ c = 'R'
            · rw [if_pos h3] at h
              split at h
              · simp only [lift_string] at h
                split at h
                · cases h
                · rename_i item curx linesx heqs
                  cases h
                  have hs := process_string_shape fuel _ _ _ _ _ heqs
                  exact StepInv_of_item st _ _ _ hs.1 hdc rfl hs.2
              · split at h
                · simp only [lift_string] at h
                  split at h
                  · cases h
                  · rename_i item curx linesx heqs
                    cases h
                    have hs := process_byte_string_shape fuel _ _ _ _ _ heqs
                    exact StepInv_of_item st _ _ _ hs.1 hdc rfl hs.2
                · simp only [lift_plain] at h
                  cases h
                  exact StepInv_of_item st _ _ st (build_identifier_free _)
                    hdc rfl (fun hx => Option.noConfusion hx)
            · rw [if_neg h3] at h
              by_cases h4 : c = 'b' ∨ c = 'B'
              · rw [if_pos h4] at h
                split at h
                · simp only [lift_string] at h
                  split at h
                  · cases h
                  · rename_i item curx linesx heqs
                    cases h
                    have hs := process_byte_string_shape fuel _ _ _ _ _ heqs
                    exact StepInv_of_item st _ _ _ hs.1 hdc rfl hs.2
                · simp only [lift_plain] at h
                  cases h
                  exact StepInv_of_item st _ _ st (build_identifier_free _)
                    hdc rfl (fun hx => Option.noConfusion hx)
              · rw [if_neg h4] at h
                by_cases h5 : is_xid_start c = true
                · rw [if_pos h5] at h
                  simp only [lift_plain] at h
                  cases h
                  exact StepInv_of_item st _ _ st (build_identifier_free _)
                    hdc rfl (fun hx => Option.noConfusion hx)
                · rw [if_neg h5] at h
                  by_cases h6 : char_is_digit c 10 = true
                  · rw [if_pos h6] at h
                    simp only [lift_plain] at h
                    cases h
                    exact StepInv_of_item st _ _ st (build_number_free _)
                      hdc rfl (fun hx => Option.noConfusion hx)
                  · rw [if_neg h6] at h
                    by_cases h7 : c = '.'
                    · rw [if_pos h7] at h
                      split at h
                      · split at h
                        · simp only [lift_plain] at h
                          cases h
                          exact StepInv_of_item st _ _ st
                            (build_number_free _) hdc rfl
                            (fun hx => Option.noConfusion hx)
                        · simp only [process_symbols] at h
                          cases h
                          exact StepInv_of_item st _ _ _
                            (build_symbol_free _ _) hdc rfl
                            (fun hx => Option.noConfusion hx)
                      · simp only [process_symbols] at h
                        cases h
                        exact StepInv_of_item st _ _ _
                          (build_symbol_free _ _) hdc rfl
                          (fun hx => Option.noConfusion hx)
                    · rw [if_neg h7] at h
                      by_cases h8 : c = '\\'
                      · rw [if_pos h8] at h
                        exact process_line_join_inv _ ih _ _ _ _ _ hbr hdc h
                      · rw [if_neg h8] at h
                        by_cases h9 : c = '\'' ∨ c = '"'
                        · rw [if_pos h9] at h
                          simp only [lift_string] at h
                          split at h
                          · cases h
                          · rename_i item curx linesx heqs
                            cases h
                            have hs := process_string_shape fuel _ _ _ _ _
                              heqs
                            exact StepInv_of_item st _ _ _ hs.1 hdc rfl hs.2
                        · rw [if_neg h9] at h
                          simp only [process_symbols] at h
                          cases h
                          exact StepInv_of_item st _ _ _
                            (build_symbol_free _ _) hdc rfl
                            (fun hx => Option.noConfusion hx)
    · -- no current line: end of input or next physical line
      split at h
      · rename_i heq
        split at h
        · cases h
          refine ⟨hdc, ?_, ?_, fun _ => rfl, fun _ => heq⟩
          · intro n tok htok; exact Option.noConfusion htok
          · intro n hC; exact Option.noConfusion hC
        · cases h
          refine ⟨hdc, ?_, ?_, ?_, fun _ => heq⟩
          · intro n tok htok
            have h2 := congrArg Prod.snd (Option.some.inj htok)
            constructor
            · intro he; rw [he] at h2
              exact absurd (Except.ok.inj h2) (by decide)
            · intro he; rw [he] at h2
              exact absurd (Except.ok.inj h2) (by decide)
          · intro n hC
            have h1 := congrArg Prod.fst (Option.some.inj hC)
            exact ⟨h1.symm, rfl, heq, rfl⟩
          · intro hD
            exact absurd rfl (hD 0)
      · rename_i l ls heq
        rw [hln rfl] at heq
        exact List.noConfusion heq

/-- C9 (amended): while the bracket-depth counter is positive (a state in
which no dedent drain can be pending), a pull of the internal scanner
keeps the dedent counter at zero, never emits `Newline` or `Indent`, and
leaves the indent stack unchanged — reaching end-of-line silently advances
to the next physical line with no indentation evaluation — with one
exception: the synthetic end-of-input `Dedent` drain still runs at
positive depth, emitting line number 0 and popping one stack level per
pull.  Concretely, the input lines "(1 +", "  2", ")" produce no layout
token between the brackets. -/
theorem C9_amended :
    (∀ (fuel : Nat) (st : LexState) (cur : Option Line) (it : Option Item)
       (cur2 : Option Line) (st2 : LexState),
      st.open_braces ≠ 0 → st.dedent_count = 0 →
      (cur = none → st.lines = []) →
      next_token_line fuel st cur = some (it, cur2, st2) →
      StepInv st it cur2 st2) ∧
    lex_internal 100 20 ["(1 +", "  2", ")"] =
      some [(1, .ok .Lparen), (1, .ok (.DecInteger "1")), (1, .ok .Plus),
            (2, .ok (.DecInteger "2")), (3, .ok .Rparen),
            (3, .ok .Newline)] :=
  ⟨next_token_line_inv, rfl⟩

/-- Witness for C9_amended: one pull on the line "x" at bracket depth 1
satisfies the invariant. -/
theorem C9_amended_witness :
    StepInv ⟨[0], 0, 1, []⟩ (some (7, .ok (.Identifier "x")))
      (some ⟨7, 0, "", []⟩) ⟨[0], 0, 1, []⟩ :=
  C9_amended.1 5 ⟨[0], 0, 1, []⟩ (some (mk_line 7 "x"))
    (some (7, .ok (.Identifier "x"))) (some ⟨7, 0, "", []⟩) ⟨[0], 0, 1, []⟩
    (by decide) rfl (fun hx => Option.noConfusion hx) rfl

end PyLex
